import Mathlib

/-!
# Minter transaction handlers: Declare-Candidacy, Recreate-Coin, commission estimation

A shallow embedding of

* `core/transaction/declare_candidacy.go` (`DeclareCandidacyData.BasicCheck`, `.Run`),
* `core/transaction/recreate_coin.go` (`RecreateCoinData.BasicCheck`, `.Run`),
* `api/estimate_tx_commission.go` (`EstimateTxCommission`).

Conventions of the embedding.

* `*big.Int` is `Int`; a `*big.Int` field of a decoded payload that may be nil is `Option Int`.
* `uint`, `uint32`, `uint64` values are `Nat` (no arithmetic is done on them in machine width:
  the handlers convert to `big.Int` before multiplying).
* The ledger store (`state.State`, `state.CheckState`) is not part of the three files.  It is
  modelled as a record of total maps (`State`), its accessors are modelled from the
  specification and marked so.  Both handlers work on one coin key type (`CoinID`):
  `declare_candidacy.go` compares `data.Coin` with `tx.GasCoin`, so both have the key type of
  the transaction's gas coin.
* Constants, formatting methods and helpers that the three files use but do not define
  (`CommissionMultiplier`, `minCoinSupply`, `formula.CalculateSaleAmount`,
  `CheckReserveUnderflow`, `validators.GetCandidatesCountForBlock`, ...) are fields of `Env`.
* A Go run-time abort (nil pointer dereference) is the outcome `none` of a `RunResult`.
-/

namespace Minter

/-! ## Basic types -/

/-- Type `types.Address`: the bytes of an address. -/
abbrev Address := List Nat

/-- Type `types.Pubkey`: the bytes of a public key. -/
abbrev Pubkey := List Nat

/-- Key of a coin record (the type of `tx.GasCoin`). -/
abbrev CoinID := Nat

/-- Type `types.CoinSymbol`, by its printed form. -/
abbrev CoinSymbol := String

/-- Status codes of package `code` that the handlers name; `other` is any further code. -/
inductive Code where
  | OK
  | DecodeError
  | CoinNotExists
  | CandidateExists
  | WrongCommission
  | WrongCrr
  | WrongCoinSupply
  | IsNotOwnerOfCoin
  | CoinReserveNotSufficient
  | InsufficientFunds
  | TooLowStake
  | other (n : Nat)
  deriving DecidableEq, Repr

/-- Type `Response`.  `Info` holds the key/value pairs handed to `EncodeError` (empty when the
field is not set); `Tags` holds the `kv.Pair`s. -/
structure Response where
  Code : Code
  Log : String := ""
  Info : List (String × String) := []
  GasUsed : Int := 0
  GasWanted : Int := 0
  Tags : List (String × String) := []
  deriving DecidableEq, Repr

/-- Decoded transaction envelope.  `Sender` is the address `tx.Sender()` yields (the error
it may return is dropped by both handlers), `Gas` the value of `tx.Gas()`. -/
structure Transaction where
  Nonce : Nat
  GasPrice : Nat
  GasCoin : CoinID
  Gas : Int
  Sender : Address
  deriving DecidableEq, Repr

/-- Coin record (`coins.Model`). -/
structure Coin where
  CName : String
  CSymbol : CoinSymbol
  Volume : Int
  Reserve : Int
  Crr : Nat
  MaxSupply : Int
  deriving DecidableEq, Repr

/-- Symbol record (`coins.SymbolInfo`): the owner address may be absent. -/
structure SymbolInfo where
  OwnerAddress : Option Address
  deriving DecidableEq, Repr

/-- One delegation to a candidate. -/
structure Delegation where
  Owner : Address
  Coin : CoinID
  Value : Int
  BipValue : Int
  deriving DecidableEq, Repr

/-- Candidate record. -/
structure Candidate where
  RewardAddress : Address
  OwnerAddress : Address
  PubKey : Pubkey
  Commission : Nat
  Delegations : List Delegation
  deriving DecidableEq, Repr

/-- Modelled from the spec: the ledger state view (Accounts: balances and nonces; Coins:
records by identifier, the identifier a symbol resolves to, and symbol records; Candidates;
App: the global coin counter).  The store itself is not among the source files. -/
structure State where
  balance : Address → CoinID → Int
  nonce : Address → Nat
  coins : CoinID → Option Coin
  symbolIndex : CoinSymbol → Option CoinID
  symbolInfo : CoinSymbol → Option SymbolInfo
  candidates : List Candidate
  coinsCount : Nat

/-- Error value `rpctypes.RPCError`. -/
structure RPCError where
  Code : Int
  Message : String
  Data : String := ""
  deriving DecidableEq, Repr

/-- Type `TxCommissionResponse`. -/
structure TxCommissionResponse where
  Commission : String
  deriving DecidableEq, Repr

/-- What the three files use and do not define. -/
structure Env where
  /-- Value of `types.GetBaseCoinID()`. -/
  BaseCoinID : CoinID
  /-- Printed form of `types.GetBaseCoin()`. -/
  BaseCoin : String
  CommissionMultiplier : Int
  minCoinSupply : Int
  maxCoinSupply : Int
  minCoinReserve : Int
  TypeDeclareCandidacy : Nat
  TypeRecreateCoin : Nat
  /-- Function `formula.CalculateSaleAmount(volume, reserve, crr, wantReceive)`. -/
  CalculateSaleAmount : Int → Int → Nat → Int → Int
  /-- Helper `CheckReserveUnderflow(coin, delta)`; it receives the pointer `GetCoin`
  returned, nil included. -/
  CheckReserveUnderflow : Option Coin → Int → Option Response
  /-- Function `validators.GetCandidatesCountForBlock(block)`. -/
  GetCandidatesCountForBlock : Nat → Nat
  /-- Method `Candidates.IsNewCandidateStakeSufficient(coin, stake, limit)`. -/
  IsNewCandidateStakeSufficient : State → CoinID → Int → Nat → Bool
  /-- Method `Address.String()`. -/
  addressString : Address → String
  /-- Method `Pubkey.String()`. -/
  pubkeyString : Pubkey → String
  /-- Printed form of a coin key under `%s`. -/
  coinString : CoinID → String
  /-- Method `Model.GetFullSymbol()`. -/
  GetFullSymbol : Coin → String
  /-- Function `GetStateForHeight(height)`. -/
  GetStateForHeight : Int → Except RPCError State
  /-- Function `TxDecoder.DecodeFromBytesWithoutSig(tx)`; the error is given by its text. -/
  DecodeFromBytesWithoutSig : List Nat → Except String Transaction

/-- The helper `CheckReserveUnderflow` only ever answers with an error response. -/
def Env.UnderflowIsError (env : Env) : Prop :=
  ∀ coin delta r, env.CheckReserveUnderflow coin delta = some r → r.Code ≠ Code.OK

/-- The helper `CheckReserveUnderflow` never answers with the code `c`. -/
def Env.UnderflowNeverReports (env : Env) (c : Code) : Prop :=
  ∀ coin delta r, env.CheckReserveUnderflow coin delta = some r → r.Code ≠ c

/-- The responses of the helper `CheckReserveUnderflow` carry a non-empty `Info`. -/
def Env.UnderflowHasInfo (env : Env) : Prop :=
  ∀ coin delta r, env.CheckReserveUnderflow coin delta = some r → r.Info ≠ []

/-! ## Standard-library pieces -/

/-- Two lower-case hexadecimal digits of one byte. -/
def hexByte (b : Nat) : String :=
  String.mk [Nat.digitChar (b / 16 % 16), Nat.digitChar (b % 16)]

/-- Function `hex.EncodeToString`. -/
def hexEncodeToString (bs : List Nat) : String :=
  String.join (bs.map hexByte)

/-- Method `(*big.Int).String()`: the decimal form. -/
def bigString (n : Int) : String := toString n

/-! ## The ledger store -/

/-- Modelled from the spec: `Accounts.GetBalance(address, coin)`, the balance held (0 when
nothing is recorded). -/
def Accounts.GetBalance (s : State) (a : Address) (c : CoinID) : Int := s.balance a c

/-- Modelled from the spec: `Accounts.SubBalance(address, coin, amount)`. -/
def Accounts.SubBalance (s : State) (a : Address) (c : CoinID) (amount : Int) : State :=
  { s with balance := fun a1 c1 =>
      if a1 = a ∧ c1 = c then s.balance a1 c1 - amount else s.balance a1 c1 }

/-- Modelled from the spec: `Accounts.AddBalance(address, coin, amount)`. -/
def Accounts.AddBalance (s : State) (a : Address) (c : CoinID) (amount : Int) : State :=
  { s with balance := fun a1 c1 =>
      if a1 = a ∧ c1 = c then s.balance a1 c1 + amount else s.balance a1 c1 }

/-- Modelled from the spec: `Accounts.SetNonce(address, nonce)`. -/
def Accounts.SetNonce (s : State) (a : Address) (n : Nat) : State :=
  { s with nonce := fun a1 => if a1 = a then n else s.nonce a1 }

/-- Modelled from the spec: `Coins.GetCoin(id)`, the record of an identifier, nil (`none`)
when the identifier is unknown. -/
def Coins.GetCoin (s : State) (id : CoinID) : Option Coin := s.coins id

/-- Modelled from the spec: `Coins.Exists(coin)`. -/
def Coins.Exists (s : State) (id : CoinID) : Bool := (s.coins id).isSome

/-- Modelled from the spec: `Coins.GetCoinBySymbol(symbol)`, the record of the identifier the
symbol resolves to. -/
def Coins.GetCoinBySymbol (s : State) (symbol : CoinSymbol) : Option Coin :=
  (s.symbolIndex symbol).bind s.coins

/-- Modelled from the spec: `Coins.GetSymbolInfo(symbol)`. -/
def Coins.GetSymbolInfo (s : State) (symbol : CoinSymbol) : Option SymbolInfo :=
  s.symbolInfo symbol

/-- Modelled from the spec: `Coins.SubReserve(id, amount)`, the reserve of the identifier's
record lowered by `amount`. -/
def Coins.SubReserve (s : State) (id : CoinID) (amount : Int) : State :=
  { s with coins := fun c =>
      if c = id then (s.coins c).map (fun k => { k with Reserve := k.Reserve - amount })
      else s.coins c }

/-- Modelled from the spec: `Coins.SubVolume(id, amount)`, the volume of the identifier's
record lowered by `amount`. -/
def Coins.SubVolume (s : State) (id : CoinID) (amount : Int) : State :=
  { s with coins := fun c =>
      if c = id then (s.coins c).map (fun k => { k with Volume := k.Volume - amount })
      else s.coins c }

/-- Modelled from the spec: `Coins.Recreate(newID, symbol, volume, crr, reserve, maxSupply)`:
a record with the given symbol, volume, reserve, CRR and max supply is stored under the new
identifier and the symbol resolves to it from now on (the old identifier is retired). -/
def Coins.Recreate (s : State) (newID : CoinID) (symbol : CoinSymbol) (volume : Int)
    (crr : Nat) (reserve : Int) (maxSupply : Int) : State :=
  { s with
    coins := fun c =>
      if c = newID then
        some { CName := "", CSymbol := symbol, Volume := volume, Reserve := reserve,
               Crr := crr, MaxSupply := maxSupply }
      else s.coins c
    symbolIndex := fun y => if y = symbol then some newID else s.symbolIndex y }

/-- Modelled from the spec: `Candidates.Exists(pubkey)`. -/
def Candidates.Exists (s : State) (pubkey : Pubkey) : Bool :=
  s.candidates.any (fun c => decide (c.PubKey = pubkey))

/-- Modelled from the spec: `Candidates.Count()`. -/
def Candidates.Count (s : State) : Nat := s.candidates.length

/-- Modelled from the spec: `Candidates.Create(rewardAddress, ownerAddress, pubkey,
commission)`, a new candidate record without delegations. -/
def Candidates.Create (s : State) (rewardAddress ownerAddress : Address) (pubkey : Pubkey)
    (commission : Nat) : State :=
  { s with candidates := s.candidates ++
      [{ RewardAddress := rewardAddress, OwnerAddress := ownerAddress, PubKey := pubkey,
         Commission := commission, Delegations := [] }] }

/-- Modelled from the spec: `Candidates.Delegate(address, pubkey, coin, value, bipValue)`, a
delegation recorded at the candidate of that public key. -/
def Candidates.Delegate (s : State) (address : Address) (pubkey : Pubkey) (coin : CoinID)
    (value bipValue : Int) : State :=
  { s with candidates := s.candidates.map (fun c =>
      if c.PubKey = pubkey then
        { c with Delegations := c.Delegations ++
            [{ Owner := address, Coin := coin, Value := value, BipValue := bipValue }] }
      else c) }

/-- Modelled from the spec: `App.GetNextCoinID()`, the identifier after the coin counter. -/
def App.GetNextCoinID (s : State) : CoinID := s.coinsCount + 1

/-- Modelled from the spec: `App.SetCoinsCount(count)`. -/
def App.SetCoinsCount (s : State) (count : Nat) : State := { s with coinsCount := count }

/-! ## Transaction envelope -/

/-- Method `CoinID.IsBaseCoin()`. -/
def IsBaseCoin (env : Env) (c : CoinID) : Bool := decide (c = env.BaseCoinID)

/-- Modelled from the spec: `tx.CommissionInBaseCoin()`, the base-coin commission owed,
`gas_price * gas_units * commission_multiplier`. -/
def Transaction.CommissionInBaseCoin (env : Env) (tx : Transaction) : Int :=
  (tx.GasPrice : Int) * tx.Gas * env.CommissionMultiplier

/-- Outcome of one handler call: the response returned (`none` when the call aborted on a nil
dereference), and the state and reward pool it leaves. -/
structure RunResult where
  response : Option Response
  state : State
  rewardPool : Int

/-- A call that returned `r` and left state and reward pool as given. -/
def RunResult.returned (r : Response) (s : State) (rewardPool : Int) : RunResult :=
  { response := some r, state := s, rewardPool := rewardPool }

/-- A call that aborted on a nil dereference. -/
def RunResult.aborted (s : State) (rewardPool : Int) : RunResult :=
  { response := none, state := s, rewardPool := rewardPool }

/-- The status code of the response a call returned, `none` when it aborted. -/
def RunResult.code (res : RunResult) : Option Code := res.response.map (fun r => r.Code)

/-- Code, log, info and gas values of a response: everything but its tags. -/
def responseCore (r : Response) : Code × String × List (String × String) × Int × Int :=
  (r.Code, r.Log, r.Info, r.GasUsed, r.GasWanted)

/-! ## Declare-Candidacy (`core/transaction/declare_candidacy.go`) -/

/-- Constant `minCommission`. -/
def minCommission : Nat := 0

/-- Constant `maxCommission`. -/
def maxCommission : Nat := 100

/-- Type `DeclareCandidacyData`. -/
structure DeclareCandidacyData where
  Address : Address
  PubKey : Pubkey
  Commission : Nat
  Coin : CoinID
  Stake : Option Int
  deriving DecidableEq, Repr

namespace DeclareCandidacyData

/-- Method `DeclareCandidacyData.BasicCheck`: `none` is Go's nil (no error). -/
def BasicCheck (env : Env) (data : DeclareCandidacyData) (_tx : Transaction)
    (context : State) : Option Response :=
  if data.Stake = none then
    some { Code := Code.DecodeError, Log := "Incorrect tx data" }
  else if ¬ Coins.Exists context data.Coin then
    some { Code := Code.CoinNotExists
           Log := "Coin " ++ env.coinString data.Coin ++ " not exists"
           Info := [("coin", env.coinString data.Coin)] }
  else if Candidates.Exists context data.PubKey then
    some { Code := Code.CandidateExists
           Log := "Candidate with such public key (" ++ env.pubkeyString data.PubKey ++
             ") already exists"
           Info := [("public_key", env.pubkeyString data.PubKey)] }
  else if data.Commission < minCommission ∨ data.Commission > maxCommission then
    some { Code := Code.WrongCommission
           Log := "Commission should be between 0 and 100"
           Info := [("got_commission", toString data.Commission)] }
  else
    none

/-- Lines 114-139 of `Run`: the commission in the gas coin.  `Except.error (some r)` is an
early return of `r`, `Except.error none` the nil dereference of `coin.Reserve()` on an
unknown gas coin. -/
def gasCommission (env : Env) (tx : Transaction) (context : State)
    (commissionInBaseCoin : Int) : Except (Option Response) Int :=
  if ¬ IsBaseCoin env tx.GasCoin then
    let coin := Coins.GetCoin context tx.GasCoin
    match env.CheckReserveUnderflow coin commissionInBaseCoin with
    | some errResp => Except.error (some errResp)
    | none =>
      match coin with
      | none => Except.error none
      | some coin =>
        if coin.Reserve < commissionInBaseCoin then
          Except.error (some
            { Code := Code.CoinReserveNotSufficient
              Log := "Coin reserve balance is not sufficient for transaction. Has: " ++
                bigString coin.Reserve ++ ", required " ++ bigString commissionInBaseCoin
              Info := [("has_reserve", bigString coin.Reserve),
                       ("commission", bigString commissionInBaseCoin),
                       ("gas_coin", coin.CName)] })
        else
          Except.ok (env.CalculateSaleAmount coin.Volume coin.Reserve coin.Crr
            commissionInBaseCoin)
  else
    Except.ok commissionInBaseCoin

/-- Lines 184-193 of `Run`: the mutations of a delivered transaction, in source order. -/
def deliver (data : DeclareCandidacyData) (tx : Transaction) (context : State)
    (stake commissionInBaseCoin commission : Int) : State :=
  let sender := tx.Sender
  let s1 := Coins.SubReserve context tx.GasCoin commissionInBaseCoin
  let s2 := Coins.SubVolume s1 tx.GasCoin commission
  let s3 := Accounts.SubBalance s2 sender data.Coin stake
  let s4 := Accounts.SubBalance s3 sender tx.GasCoin commission
  let s5 := Candidates.Create s4 data.Address sender data.PubKey data.Commission
  let s6 := Candidates.Delegate s5 sender data.PubKey data.Coin stake 0
  Accounts.SetNonce s6 sender tx.Nonce

/-- Method `DeclareCandidacyData.Run`. -/
def Run (env : Env) (data : DeclareCandidacyData) (tx : Transaction) (context : State)
    (isCheck : Bool) (rewardPool : Int) (currentBlock : Nat) : RunResult :=
  let sender := tx.Sender
  match BasicCheck env data tx context, data.Stake with
  | some response, _ => RunResult.returned response context rewardPool
  | none, none => RunResult.aborted context rewardPool
  | none, some stake =>
    let maxCandidatesCount := env.GetCandidatesCountForBlock currentBlock
    if Candidates.Count context ≥ maxCandidatesCount ∧
        ¬ env.IsNewCandidateStakeSufficient context data.Coin stake maxCandidatesCount then
      RunResult.returned { Code := Code.TooLowStake, Log := "Given stake is too low" }
        context rewardPool
    else
      let commissionInBaseCoin := (tx.GasPrice : Int) * tx.Gas * env.CommissionMultiplier
      match gasCommission env tx context commissionInBaseCoin with
      | Except.error r => { response := r, state := context, rewardPool := rewardPool }
      | Except.ok commission =>
        if Accounts.GetBalance context sender data.Coin < stake then
          RunResult.returned
            { Code := Code.InsufficientFunds
              Log := "Insufficient funds for sender account: " ++ env.addressString sender ++
                ". Wanted " ++ bigString stake ++ " " ++ env.coinString data.Coin
              Info := [("sender", env.addressString sender),
                       ("needed_value", bigString stake),
                       ("coin", env.coinString data.Coin)] }
            context rewardPool
        else if Accounts.GetBalance context sender tx.GasCoin < commission then
          RunResult.returned
            { Code := Code.InsufficientFunds
              Log := "Insufficient funds for sender account: " ++ env.addressString sender ++
                ". Wanted " ++ bigString commission ++ " " ++ env.coinString tx.GasCoin
              Info := [("sender", env.addressString sender),
                       ("needed_value", bigString commission),
                       ("gas_coin", env.coinString tx.GasCoin)] }
            context rewardPool
        else if data.Coin = tx.GasCoin ∧
            Accounts.GetBalance context sender tx.GasCoin < 0 + stake + commission then
          RunResult.returned
            { Code := Code.InsufficientFunds
              Log := "Insufficient funds for sender account: " ++ env.addressString sender ++
                ". Wanted " ++ bigString (0 + stake + commission) ++ " " ++
                env.coinString tx.GasCoin
              Info := [("sender", env.addressString sender),
                       ("needed_value", bigString (0 + stake + commission)),
                       ("gas_coin", env.coinString tx.GasCoin)] }
            context rewardPool
        else
          let tags := [("tx.type", hexEncodeToString [env.TypeDeclareCandidacy % 256]),
                       ("tx.from", hexEncodeToString sender)]
          let response : Response :=
            { Code := Code.OK, GasUsed := tx.Gas, GasWanted := tx.Gas, Tags := tags }
          if ¬ isCheck then
            RunResult.returned response
              (deliver data tx context stake commissionInBaseCoin commission)
              (rewardPool + commissionInBaseCoin)
          else
            RunResult.returned response context rewardPool

end DeclareCandidacyData

/-! ## Recreate-Coin (`core/transaction/recreate_coin.go`) -/

/-- Type `RecreateCoinData`. -/
structure RecreateCoinData where
  Symbol : CoinSymbol
  InitialAmount : Option Int
  InitialReserve : Option Int
  ConstantReserveRatio : Nat
  MaxSupply : Option Int
  deriving DecidableEq, Repr

/-- The `state.Interface` argument of `RecreateCoinData.Run`: a `*state.CheckState` or a
`*state.State`, each a view of one ledger state. -/
inductive StateInterface where
  | ofCheckState (s : State)
  | ofState (s : State)

/-- The ledger state a context views. -/
def StateInterface.view : StateInterface → State
  | StateInterface.ofCheckState s => s
  | StateInterface.ofState s => s

/-- The flag `isCheck` of `RecreateCoinData.Run`: whether the context is a
`*state.CheckState`. -/
def StateInterface.isCheck : StateInterface → Bool
  | StateInterface.ofCheckState _ => true
  | StateInterface.ofState _ => false

namespace RecreateCoinData

/-- Method `RecreateCoinData.BasicCheck`: `none` is Go's nil (no error). -/
def BasicCheck (env : Env) (data : RecreateCoinData) (tx : Transaction)
    (context : State) : Option Response :=
  match data.InitialReserve, data.InitialAmount, data.MaxSupply with
  | some initialReserve, some initialAmount, some maxSupply =>
    if data.ConstantReserveRatio < 10 ∨ data.ConstantReserveRatio > 100 then
      some { Code := Code.WrongCrr
             Log := "Constant Reserve Ratio should be between 10 and 100" }
    else if initialAmount < env.minCoinSupply ∨ initialAmount > maxSupply then
      some { Code := Code.WrongCoinSupply
             Log := "Coin supply should be between " ++ bigString env.minCoinSupply ++
               " and " ++ bigString maxSupply }
    else if maxSupply > env.maxCoinSupply then
      some { Code := Code.WrongCoinSupply
             Log := "Max coin supply should be less than " ++ bigString env.maxCoinSupply }
    else if initialReserve < env.minCoinReserve then
      some { Code := Code.WrongCoinSupply
             Log := "Coin reserve should be greater than or equal to " ++
               bigString env.minCoinReserve }
    else
      let sender := tx.Sender
      match Coins.GetCoinBySymbol context data.Symbol with
      | none =>
        some { Code := Code.CoinNotExists
               Log := "Coin " ++ data.Symbol ++ " not exists" }
      | some coin =>
        match Coins.GetSymbolInfo context coin.CSymbol with
        | some { OwnerAddress := some owner } =>
          if owner ≠ sender then
            some { Code := Code.IsNotOwnerOfCoin, Log := "Sender is not owner of coin" }
          else
            none
        | _ => some { Code := Code.IsNotOwnerOfCoin, Log := "Sender is not owner of coin" }
  | _, _, _ => some { Code := Code.DecodeError, Log := "Incorrect tx data" }

/-- Lines 102-126 of `Run`: the commission in the gas coin.  `Except.error (some r)` is an
early return of `r`, `Except.error none` the nil dereference of `gasCoin.Reserve()` on an
unknown gas coin. -/
def gasCommission (env : Env) (tx : Transaction) (checkState : State)
    (commissionInBaseCoin : Int) : Except (Option Response) Int :=
  if tx.GasCoin ≠ env.BaseCoinID then
    let gasCoin := Coins.GetCoin checkState tx.GasCoin
    match env.CheckReserveUnderflow gasCoin commissionInBaseCoin with
    | some errResp => Except.error (some errResp)
    | none =>
      match gasCoin with
      | none => Except.error none
      | some gasCoin =>
        if gasCoin.Reserve < commissionInBaseCoin then
          Except.error (some
            { Code := Code.CoinReserveNotSufficient
              Log := "Gas coin reserve balance is not sufficient for transaction. Has: " ++
                bigString gasCoin.Reserve ++ " " ++ env.BaseCoin ++ ", required " ++
                bigString commissionInBaseCoin ++ " " ++ env.BaseCoin
              Info := [("has_value", bigString gasCoin.Reserve),
                       ("required_value", bigString commissionInBaseCoin),
                       ("gas_coin", env.GetFullSymbol gasCoin)] })
        else
          Except.ok (env.CalculateSaleAmount gasCoin.Volume gasCoin.Reserve gasCoin.Crr
            commissionInBaseCoin)
  else
    Except.ok commissionInBaseCoin

/-- Lines 182-200 of `Run`: the mutations of a delivered transaction, in source order. -/
def deliver (env : Env) (data : RecreateCoinData) (tx : Transaction) (deliverState : State)
    (initialAmount initialReserve maxSupply commissionInBaseCoin commission : Int) : State :=
  let sender := tx.Sender
  let s1 := Coins.SubReserve deliverState tx.GasCoin commissionInBaseCoin
  let s2 := Coins.SubVolume s1 tx.GasCoin commission
  let s3 := Accounts.SubBalance s2 sender env.BaseCoinID initialReserve
  let s4 := Accounts.SubBalance s3 sender tx.GasCoin commission
  let coinID := App.GetNextCoinID s4
  let s5 := Coins.Recreate s4 coinID data.Symbol initialAmount data.ConstantReserveRatio
    initialReserve maxSupply
  let s6 := App.SetCoinsCount s5 coinID
  let s7 := Accounts.AddBalance s6 sender coinID initialAmount
  Accounts.SetNonce s7 sender tx.Nonce

/-- Method `RecreateCoinData.Run`.  A `*state.State` context is read through the check state
made of it (`state.NewCheckState`), so both contexts are read as `context.view`. -/
def Run (env : Env) (data : RecreateCoinData) (tx : Transaction) (context : StateInterface)
    (rewardPool : Int) (_currentBlock : Nat) : RunResult :=
  let sender := tx.Sender
  let checkState := context.view
  match BasicCheck env data tx checkState, data.InitialAmount, data.InitialReserve,
      data.MaxSupply with
  | some response, _, _, _ => RunResult.returned response checkState rewardPool
  | none, some initialAmount, some initialReserve, some maxSupply =>
    let commissionInBaseCoin := tx.CommissionInBaseCoin env
    match gasCommission env tx checkState commissionInBaseCoin with
    | Except.error r => { response := r, state := checkState, rewardPool := rewardPool }
    | Except.ok commission =>
      if Accounts.GetBalance checkState sender tx.GasCoin < commission then
        match Coins.GetCoin checkState tx.GasCoin with
        | none => RunResult.aborted checkState rewardPool
        | some gasCoin =>
          RunResult.returned
            { Code := Code.InsufficientFunds
              Log := "Insufficient funds for sender account: " ++ env.addressString sender ++
                ". Wanted " ++ bigString commission ++ " " ++ env.GetFullSymbol gasCoin
              Info := [("sender", env.addressString sender),
                       ("needed_value", bigString commission),
                       ("gas_coin", env.GetFullSymbol gasCoin)] }
            checkState rewardPool
      else if Accounts.GetBalance checkState sender env.BaseCoinID < initialReserve then
        RunResult.returned
          { Code := Code.InsufficientFunds
            Log := "Insufficient funds for sender account: " ++ env.addressString sender ++
              ". Wanted " ++ bigString initialReserve ++ " " ++ env.BaseCoin
            Info := [("sender", env.addressString sender),
                     ("needed_reserve", bigString initialReserve),
                     ("base_coin", env.BaseCoin)] }
          checkState rewardPool
      else if IsBaseCoin env tx.GasCoin ∧
          Accounts.GetBalance checkState sender env.BaseCoinID <
            0 + initialReserve + commission then
        match Coins.GetCoin checkState tx.GasCoin with
        | none => RunResult.aborted checkState rewardPool
        | some gasCoin =>
          RunResult.returned
            { Code := Code.InsufficientFunds
              Log := "Insufficient funds for sender account: " ++ env.addressString sender ++
                ". Wanted " ++ bigString (0 + initialReserve + commission) ++ " " ++
                env.GetFullSymbol gasCoin
              Info := [("sender", env.addressString sender),
                       ("needed_value", bigString (0 + initialReserve + commission)),
                       ("gas_coin", env.GetFullSymbol gasCoin)] }
            checkState rewardPool
      else
        let tags := [("tx.type", hexEncodeToString [env.TypeRecreateCoin % 256]),
                     ("tx.from", hexEncodeToString sender)]
        match context with
        | StateInterface.ofState deliverState =>
          RunResult.returned
            { Code := Code.OK, Tags := tags ++ [("tx.coin", data.Symbol)],
              GasUsed := tx.Gas, GasWanted := tx.Gas }
            (deliver env data tx deliverState initialAmount initialReserve maxSupply
              commissionInBaseCoin commission)
            (rewardPool + commissionInBaseCoin)
        | StateInterface.ofCheckState _ =>
          RunResult.returned
            { Code := Code.OK, Tags := tags, GasUsed := tx.Gas, GasWanted := tx.Gas }
            checkState rewardPool
  | none, _, _, _ => RunResult.aborted checkState rewardPool

end RecreateCoinData

/-! ## Commission estimation (`api/estimate_tx_commission.go`) -/

/-- Function `EstimateTxCommission`: `none` is the nil dereference of `coin.Reserve()` on an
unknown gas coin, `Except.error` the returned error, `Except.ok` the returned response. -/
def EstimateTxCommission (env : Env) (tx : List Nat) (height : Int) :
    Option (Except RPCError TxCommissionResponse) :=
  match env.GetStateForHeight height with
  | Except.error err => some (Except.error err)
  | Except.ok cState =>
    match env.DecodeFromBytesWithoutSig tx with
    | Except.error err =>
      some (Except.error
        { Code := 400, Message := "Cannot decode transaction", Data := err })
    | Except.ok decodedTx =>
      let commissionInBaseCoin := decodedTx.CommissionInBaseCoin env
      if ¬ IsBaseCoin env decodedTx.GasCoin then
        match Coins.GetCoin cState decodedTx.GasCoin with
        | none => none
        | some coin =>
          if coin.Reserve < commissionInBaseCoin then
            some (Except.error
              { Code := 400
                Message := "Coin reserve balance is not sufficient for transaction. Has: " ++
                  bigString coin.Reserve ++ ", required " ++ bigString commissionInBaseCoin })
          else
            some (Except.ok
              { Commission := bigString (env.CalculateSaleAmount coin.Volume coin.Reserve
                  coin.Crr commissionInBaseCoin) })
      else
        some (Except.ok { Commission := bigString commissionInBaseCoin })

/-! ## The static rules of Recreate-Coin as the specification lists them -/

/-- The static rules of Recreate-Coin in the order the specification lists them, each with
whether it holds and the code reported when it does not: the three amounts are present;
`10 <= CRR <= 100`; `minCoinSupply <= initial_amount <= max_supply`;
`max_supply <= global_max_coin_supply`; `initial_reserve >= minCoinReserve`; the symbol
resolves to an existing coin; the coin's symbol has a recorded owner and it is the sender. -/
def RecreateCoinData.staticRules (env : Env) (data : RecreateCoinData) (tx : Transaction)
    (s : State) : List (Bool × Code) :=
  [ (data.InitialAmount.isSome && data.InitialReserve.isSome && data.MaxSupply.isSome,
      Code.DecodeError),
    (decide (10 ≤ data.ConstantReserveRatio ∧ data.ConstantReserveRatio ≤ 100),
      Code.WrongCrr),
    (match data.InitialAmount, data.MaxSupply with
      | some amount, some maxSupply => decide (env.minCoinSupply ≤ amount ∧ amount ≤ maxSupply)
      | _, _ => false,
      Code.WrongCoinSupply),
    (match data.MaxSupply with
      | some maxSupply => decide (maxSupply ≤ env.maxCoinSupply)
      | none => false,
      Code.WrongCoinSupply),
    (match data.InitialReserve with
      | some reserve => decide (env.minCoinReserve ≤ reserve)
      | none => false,
      Code.WrongCoinSupply),
    ((Coins.GetCoinBySymbol s data.Symbol).isSome, Code.CoinNotExists),
    (match Coins.GetCoinBySymbol s data.Symbol with
      | some coin =>
        match Coins.GetSymbolInfo s coin.CSymbol with
        | some info => decide (info.OwnerAddress = some tx.Sender)
        | none => false
      | none => false,
      Code.IsNotOwnerOfCoin) ]

/-- The code of the first rule of `staticRules` that does not hold, `none` when all hold. -/
def RecreateCoinData.firstViolatedRule (env : Env) (data : RecreateCoinData)
    (tx : Transaction) (s : State) : Option Code :=
  ((RecreateCoinData.staticRules env data tx s).find? (fun rule => !rule.1)).map
    (fun rule => rule.2)

/-! ## Concrete inputs -/

/-- The base coin's record in the example states. -/
def baseCoinRecord : Coin :=
  { CName := "BIP", CSymbol := "BIP", Volume := 0, Reserve := 0, Crr := 100,
    MaxSupply := 1000000 }

/-- A custom coin `TEST` with volume 5000 and reserve 1000. -/
def testCoinRecord : Coin :=
  { CName := "Test coin", CSymbol := "TEST", Volume := 5000, Reserve := 1000, Crr := 100,
    MaxSupply := 100000 }

/-- A state with the base coin (0) and the coin `TEST` (1) owned by address `[1]`, in which
address `[1]` holds 1000 of the base coin and 400 of `TEST`, no candidates, nonce 0
everywhere. -/
def exampleState : State where
  balance := fun a c => if a = [1] ∧ c = 0 then 1000 else if a = [1] ∧ c = 1 then 400 else 0
  nonce := fun _ => 0
  coins := fun c => if c = 0 then some baseCoinRecord else if c = 1 then some testCoinRecord
    else none
  symbolIndex := fun y => if y = "BIP" then some 0 else if y = "TEST" then some 1 else none
  symbolInfo := fun y => if y = "TEST" then some { OwnerAddress := some [1] } else none
  candidates := []
  coinsCount := 1

/-- An environment with small constants: base coin 0, commission multiplier 1, the CRR = 100
case of the sale formula for every coin, an underflow helper that answers with code
`other 0` when the reserve left would be below `minCoinReserve`, three candidate seats, the
example state at every height, and a decoder that reads the four bytes nonce, gas price, gas
coin, gas. -/
def exampleEnv : Env where
  BaseCoinID := 0
  BaseCoin := "BIP"
  CommissionMultiplier := 1
  minCoinSupply := 1
  maxCoinSupply := 1000000
  minCoinReserve := 100
  TypeDeclareCandidacy := 6
  TypeRecreateCoin := 16
  CalculateSaleAmount := fun supply reserve _ wantReceive => wantReceive * supply / reserve
  CheckReserveUnderflow := fun coin delta =>
    match coin with
    | some c =>
      if c.Reserve - delta < 100 then
        some { Code := Code.other 0, Log := "coin reserve is too small" }
      else none
    | none => none
  GetCandidatesCountForBlock := fun _ => 3
  IsNewCandidateStakeSufficient := fun _ _ _ _ => false
  addressString := fun a => "Mx" ++ hexEncodeToString a
  pubkeyString := fun k => "Mp" ++ hexEncodeToString k
  coinString := fun c => toString c
  GetFullSymbol := fun c => c.CSymbol
  GetStateForHeight := fun _ => Except.ok exampleState
  DecodeFromBytesWithoutSig := fun bytes =>
    match bytes with
    | [nonce, gasPrice, gasCoin, gas] =>
      Except.ok { Nonce := nonce, GasPrice := gasPrice, GasCoin := gasCoin, Gas := gas,
                  Sender := [] }
    | _ => Except.error "unexpected end of input"

/-- The spec's scenario: stake 100 in the base coin, candidate commission 10. -/
def exampleDeclare : DeclareCandidacyData :=
  { Address := [1], PubKey := [7], Commission := 10, Coin := 0, Stake := some 100 }

/-- A transaction of address `[1]` with nonce 1 paying 1 * 10 * 1 = 10 in the base coin. -/
def exampleTx : Transaction :=
  { Nonce := 1, GasPrice := 1, GasCoin := 0, Gas := 10, Sender := [1] }

/-- A recreation of `TEST`: amount 500, reserve 200, CRR 50, max supply 1000. -/
def exampleRecreate : RecreateCoinData :=
  { Symbol := "TEST", InitialAmount := some 500, InitialReserve := some 200,
    ConstantReserveRatio := 50, MaxSupply := some 1000 }

/-- The example environment with an underflow helper that never objects. -/
def lenientEnv : Env :=
  { exampleEnv with CheckReserveUnderflow := fun _ _ => none }

/-- The example transaction paid in `TEST` (coin 1) at gas price 200: the base-coin
commission is 200 * 10 * 1 = 2000, above the reserve 1000 of `TEST`. -/
def costlyTx : Transaction :=
  { Nonce := 1, GasPrice := 200, GasCoin := 1, Gas := 10, Sender := [1] }

/-- The example state with three registered candidates (public keys `[11]`, `[12]`,
`[13]`), as many as the example environment admits. -/
def crowdedState : State :=
  { exampleState with
    candidates :=
      [{ RewardAddress := [4], OwnerAddress := [4], PubKey := [11], Commission := 5,
         Delegations := [{ Owner := [4], Coin := 0, Value := 900, BipValue := 900 }] },
       { RewardAddress := [5], OwnerAddress := [5], PubKey := [12], Commission := 5,
         Delegations := [{ Owner := [5], Coin := 0, Value := 800, BipValue := 800 }] },
       { RewardAddress := [6], OwnerAddress := [6], PubKey := [13], Commission := 5,
         Delegations := [{ Owner := [6], Coin := 0, Value := 700, BipValue := 700 }] }] }

/-- The example transaction paid in `TEST` (coin 1): the base-coin commission 10 costs
`10 * 5000 / 1000 = 50` of `TEST`. -/
def testCoinTx : Transaction :=
  { Nonce := 1, GasPrice := 1, GasCoin := 1, Gas := 10, Sender := [1] }

/-! ## Shared lemmas -/

theorem declare_gasCommission_error_code (env : Env) (hu : env.UnderflowIsError)
    (tx : Transaction) (s : State) (cib : Int) (r : Response)
    (h : DeclareCandidacyData.gasCommission env tx s cib = Except.error (some r)) :
    r.Code ≠ Code.OK := by
  unfold DeclareCandidacyData.gasCommission at h
  split at h
  · simp only at h
    split at h
    · next errResp hres =>
      simp only [Except.error.injEq, Option.some.injEq] at h
      subst h
      exact hu _ _ _ hres
    · split at h
      · simp at h
      · split at h
        · simp only [Except.error.injEq, Option.some.injEq] at h
          subst h
          simp
        · simp at h
  · simp at h

/-- A Declare-Candidacy call either leaves state and reward pool as they were, or it is a
Deliver-mode call that returned OK. -/
theorem declare_Run_frame (env : Env) (data : DeclareCandidacyData)
    (tx : Transaction) (s : State) (isCheck : Bool) (rp : Int) (h : Nat) :
    ((DeclareCandidacyData.Run env data tx s isCheck rp h).state = s ∧
      (DeclareCandidacyData.Run env data tx s isCheck rp h).rewardPool = rp) ∨
    (isCheck = false ∧
      (DeclareCandidacyData.Run env data tx s isCheck rp h).code = some Code.OK) := by
  unfold DeclareCandidacyData.Run
  simp only
  split
  · left; exact ⟨rfl, rfl⟩
  · left; exact ⟨rfl, rfl⟩
  · split
    · left; exact ⟨rfl, rfl⟩
    · split
      · left; exact ⟨rfl, rfl⟩
      · split
        · left; exact ⟨rfl, rfl⟩
        · split
          · left; exact ⟨rfl, rfl⟩
          · split
            · left; exact ⟨rfl, rfl⟩
            · split
              · next hc =>
                right
                refine ⟨by simpa using hc, rfl⟩
              · left; exact ⟨rfl, rfl⟩

theorem declare_BasicCheck_code (env : Env) (data : DeclareCandidacyData)
    (tx : Transaction) (s : State) (r : Response)
    (h : DeclareCandidacyData.BasicCheck env data tx s = some r) : r.Code ≠ Code.OK := by
  unfold DeclareCandidacyData.BasicCheck at h
  split_ifs at h <;> simp only [Option.some.injEq] at h <;> subst h <;> simp

/-- What an OK answer of a Declare-Candidacy call says about the input: every check passed,
and the outcome is the delivered state in Deliver mode, the state as it was in Check mode. -/
theorem declare_Run_ok (env : Env) (hu : env.UnderflowIsError)
    (data : DeclareCandidacyData) (tx : Transaction) (s : State) (isCheck : Bool) (rp : Int)
    (h : Nat)
    (hok : (DeclareCandidacyData.Run env data tx s isCheck rp h).code = some Code.OK) :
    ∃ stake commission,
      data.Stake = some stake ∧
      DeclareCandidacyData.BasicCheck env data tx s = none ∧
      DeclareCandidacyData.gasCommission env tx s
        ((tx.GasPrice : Int) * tx.Gas * env.CommissionMultiplier) = Except.ok commission ∧
      stake ≤ s.balance tx.Sender data.Coin ∧
      commission ≤ s.balance tx.Sender tx.GasCoin ∧
      (data.Coin = tx.GasCoin → stake + commission ≤ s.balance tx.Sender tx.GasCoin) ∧
      (DeclareCandidacyData.Run env data tx s isCheck rp h).state =
        (if isCheck = true then s else DeclareCandidacyData.deliver data tx s stake
          ((tx.GasPrice : Int) * tx.Gas * env.CommissionMultiplier) commission) ∧
      (DeclareCandidacyData.Run env data tx s isCheck rp h).rewardPool =
        (if isCheck = true then rp
          else rp + (tx.GasPrice : Int) * tx.Gas * env.CommissionMultiplier) := by
  generalize hR : DeclareCandidacyData.Run env data tx s isCheck rp h = res at hok ⊢
  unfold DeclareCandidacyData.Run at hR
  simp only at hR
  split at hR
  · rename_i response hb
    exfalso
    subst hR
    simp only [RunResult.code, RunResult.returned, Option.map_some', Option.some.injEq] at hok
    exact declare_BasicCheck_code env data tx s response hb hok
  · subst hR
    simp [RunResult.code, RunResult.aborted] at hok
  · rename_i stake hb hs
    split at hR
    · subst hR
      simp [RunResult.code, RunResult.returned] at hok
    · split at hR
      · rename_i r hg
        exfalso
        subst hR
        cases r with
        | none => simp [RunResult.code] at hok
        | some r =>
          simp only [RunResult.code, Option.map_some', Option.some.injEq] at hok
          exact declare_gasCommission_error_code env hu tx s _ r hg hok
      · rename_i commission hg
        split at hR
        · subst hR
          simp [RunResult.code, RunResult.returned] at hok
        · rename_i h1
          split at hR
          · subst hR
            simp [RunResult.code, RunResult.returned] at hok
          · rename_i h2
            split at hR
            · subst hR
              simp [RunResult.code, RunResult.returned] at hok
            · rename_i h3
              refine ⟨stake, commission, hs, hb, hg, ?_, ?_, ?_, ?_, ?_⟩
              · simpa [Accounts.GetBalance] using h1
              · simpa [Accounts.GetBalance] using h2
              · intro hc
                simp only [Accounts.GetBalance, not_and, not_lt] at h3
                have := h3 hc
                omega
              · subst hR
                cases isCheck <;> simp [RunResult.returned]
              · subst hR
                cases isCheck <;> simp [RunResult.returned]

theorem declare_deliver_balance (data : DeclareCandidacyData) (tx : Transaction)
    (s : State) (stake cib commission : Int) (a : Address) (c : CoinID) :
    (DeclareCandidacyData.deliver data tx s stake cib commission).balance a c =
      s.balance a c - (if a = tx.Sender ∧ c = data.Coin then stake else 0)
        - (if a = tx.Sender ∧ c = tx.GasCoin then commission else 0) := by
  simp only [DeclareCandidacyData.deliver, Accounts.SetNonce, Candidates.Delegate,
    Candidates.Create, Accounts.SubBalance, Coins.SubVolume, Coins.SubReserve]
  split_ifs <;> omega

theorem declare_deliver_nonce (data : DeclareCandidacyData) (tx : Transaction)
    (s : State) (stake cib commission : Int) (a : Address) :
    (DeclareCandidacyData.deliver data tx s stake cib commission).nonce a =
      if a = tx.Sender then tx.Nonce else s.nonce a := by
  simp only [DeclareCandidacyData.deliver, Accounts.SetNonce, Candidates.Delegate,
    Candidates.Create, Accounts.SubBalance, Coins.SubVolume, Coins.SubReserve]

theorem recreate_BasicCheck_code (env : Env) (data : RecreateCoinData)
    (tx : Transaction) (s : State) (r : Response)
    (h : RecreateCoinData.BasicCheck env data tx s = some r) : r.Code ≠ Code.OK := by
  unfold RecreateCoinData.BasicCheck at h
  split at h
  · split_ifs at h
    · simp only [Option.some.injEq] at h; subst h; simp
    · simp only [Option.some.injEq] at h; subst h; simp
    · simp only [Option.some.injEq] at h; subst h; simp
    · simp only [Option.some.injEq] at h; subst h; simp
    · simp only at h
      split at h
      · simp only [Option.some.injEq] at h; subst h; simp
      · split at h
        · split_ifs at h
          simp only [Option.some.injEq] at h; subst h; simp
        · simp only [Option.some.injEq] at h; subst h; simp
  · simp only [Option.some.injEq] at h; subst h; simp

theorem recreate_gasCommission_error_code (env : Env) (hu : env.UnderflowIsError)
    (tx : Transaction) (s : State) (cib : Int) (r : Response)
    (h : RecreateCoinData.gasCommission env tx s cib = Except.error (some r)) :
    r.Code ≠ Code.OK := by
  unfold RecreateCoinData.gasCommission at h
  split at h
  · simp only at h
    split at h
    · next errResp hres =>
      simp only [Except.error.injEq, Option.some.injEq] at h
      subst h
      exact hu _ _ _ hres
    · split at h
      · simp at h
      · split at h
        · simp only [Except.error.injEq, Option.some.injEq] at h
          subst h
          simp
        · simp at h
  · simp at h

/-- A Recreate-Coin call either leaves state and reward pool as they were, or it is a call on
a `*state.State` context that returned OK. -/
theorem recreate_Run_frame (env : Env) (data : RecreateCoinData)
    (tx : Transaction) (context : StateInterface) (rp : Int) (h : Nat) :
    ((RecreateCoinData.Run env data tx context rp h).state = context.view ∧
      (RecreateCoinData.Run env data tx context rp h).rewardPool = rp) ∨
    ((∃ s, context = StateInterface.ofState s) ∧
      (RecreateCoinData.Run env data tx context rp h).code = some Code.OK) := by
  unfold RecreateCoinData.Run
  simp only
  split
  · left; exact ⟨rfl, rfl⟩
  · split
    · left; exact ⟨rfl, rfl⟩
    · split
      · split
        · left; exact ⟨rfl, rfl⟩
        · left; exact ⟨rfl, rfl⟩
      · split
        · left; exact ⟨rfl, rfl⟩
        · split
          · split
            · left; exact ⟨rfl, rfl⟩
            · left; exact ⟨rfl, rfl⟩
          · split
            · right; exact ⟨⟨_, rfl⟩, rfl⟩
            · left; exact ⟨rfl, rfl⟩
  · left; exact ⟨rfl, rfl⟩

/-- What an OK answer of a Recreate-Coin call says about the input: every check passed, and
the outcome is the delivered state on a `*state.State` context, the state as it was on a
`*state.CheckState` context. -/
theorem recreate_Run_ok (env : Env) (hu : env.UnderflowIsError)
    (data : RecreateCoinData) (tx : Transaction) (context : StateInterface) (rp : Int)
    (h : Nat)
    (hok : (RecreateCoinData.Run env data tx context rp h).code = some Code.OK) :
    ∃ amount reserve maxSupply commission,
      data.InitialAmount = some amount ∧
      data.InitialReserve = some reserve ∧
      data.MaxSupply = some maxSupply ∧
      RecreateCoinData.BasicCheck env data tx context.view = none ∧
      RecreateCoinData.gasCommission env tx context.view (tx.CommissionInBaseCoin env) =
        Except.ok commission ∧
      commission ≤ context.view.balance tx.Sender tx.GasCoin ∧
      reserve ≤ context.view.balance tx.Sender env.BaseCoinID ∧
      (tx.GasCoin = env.BaseCoinID →
        reserve + commission ≤ context.view.balance tx.Sender env.BaseCoinID) ∧
      (RecreateCoinData.Run env data tx context rp h).state =
        (if context.isCheck = true then context.view
          else RecreateCoinData.deliver env data tx context.view amount reserve maxSupply
            (tx.CommissionInBaseCoin env) commission) ∧
      (RecreateCoinData.Run env data tx context rp h).rewardPool =
        (if context.isCheck = true then rp else rp + tx.CommissionInBaseCoin env) := by
  generalize hR : RecreateCoinData.Run env data tx context rp h = res at hok ⊢
  unfold RecreateCoinData.Run at hR
  simp only at hR
  split at hR
  · rename_i response hb
    exfalso
    subst hR
    simp only [RunResult.code, RunResult.returned, Option.map_some', Option.some.injEq] at hok
    exact recreate_BasicCheck_code env data tx _ response hb hok
  · rename_i amount reserve maxSupply hb ha hr hm
    split at hR
    · rename_i r hg
      exfalso
      subst hR
      cases r with
      | none => simp [RunResult.code] at hok
      | some r =>
        simp only [RunResult.code, Option.map_some', Option.some.injEq] at hok
        exact recreate_gasCommission_error_code env hu tx _ _ r hg hok
    · rename_i commission hg
      split at hR
      · exfalso
        split at hR <;> subst hR <;> simp [RunResult.code, RunResult.returned,
          RunResult.aborted] at hok
      · rename_i h1
        split at hR
        · subst hR
          simp [RunResult.code, RunResult.returned] at hok
        · rename_i h2
          split at hR
          · exfalso
            split at hR <;> subst hR <;> simp [RunResult.code, RunResult.returned,
              RunResult.aborted] at hok
          · rename_i h3
            refine ⟨amount, reserve, maxSupply, commission, ha, hr, hm, hb, hg, ?_, ?_, ?_,
              ?_, ?_⟩
            · simpa [Accounts.GetBalance] using h1
            · simpa [Accounts.GetBalance] using h2
            · intro hc
              simp only [Accounts.GetBalance, IsBaseCoin, decide_eq_true_eq, not_and,
                not_lt] at h3
              have := h3 hc
              omega
            · subst hR
              cases context <;>
                simp [RunResult.returned, StateInterface.view, StateInterface.isCheck]
            · subst hR
              cases context <;> simp [RunResult.returned, StateInterface.isCheck]
  · subst hR
    simp [RunResult.code, RunResult.aborted] at hok

theorem recreate_deliver_balance (env : Env) (data : RecreateCoinData)
    (tx : Transaction) (s : State) (amount reserve maxSupply cib commission : Int)
    (a : Address) (c : CoinID) :
    (RecreateCoinData.deliver env data tx s amount reserve maxSupply cib commission).balance
        a c =
      s.balance a c - (if a = tx.Sender ∧ c = env.BaseCoinID then reserve else 0)
        - (if a = tx.Sender ∧ c = tx.GasCoin then commission else 0)
        + (if a = tx.Sender ∧ c = s.coinsCount + 1 then amount else 0) := by
  simp only [RecreateCoinData.deliver, Accounts.SetNonce, Accounts.AddBalance,
    App.SetCoinsCount, Coins.Recreate, App.GetNextCoinID, Accounts.SubBalance,
    Coins.SubVolume, Coins.SubReserve]
  split_ifs <;> omega

theorem recreate_deliver_nonce (env : Env) (data : RecreateCoinData)
    (tx : Transaction) (s : State) (amount reserve maxSupply cib commission : Int)
    (a : Address) :
    (RecreateCoinData.deliver env data tx s amount reserve maxSupply cib commission).nonce a =
      if a = tx.Sender then tx.Nonce else s.nonce a := by
  simp only [RecreateCoinData.deliver, Accounts.SetNonce, Accounts.AddBalance,
    App.SetCoinsCount, Coins.Recreate, App.GetNextCoinID, Accounts.SubBalance,
    Coins.SubVolume, Coins.SubReserve]

theorem exampleEnv_underflowIsError : exampleEnv.UnderflowIsError := by
  intro coin delta r hr
  simp only [exampleEnv] at hr
  split at hr
  · split_ifs at hr
    simp only [Option.some.injEq] at hr
    subst hr
    simp
  · simp at hr

theorem exampleState_balance_nonneg (a : Address) (c : CoinID) :
    0 ≤ exampleState.balance a c := by
  simp only [exampleState]
  split_ifs <;> omega

/-! ## Claims -/

/-- C1: a handler run in Check mode (`DeclareCandidacyData.Run` with `isCheck = true`,
`RecreateCoinData.Run` on a `*state.CheckState` context) leaves the whole state (accounts,
coins, candidates, app counter) and the reward pool as they were before the call, whatever
the outcome of the call. -/
theorem check_mode_leaves_state_unchanged (env : Env) (declare : DeclareCandidacyData)
    (recreate : RecreateCoinData) (tx : Transaction) (s : State) (rewardPool : Int)
    (currentBlock : Nat) :
    ((DeclareCandidacyData.Run env declare tx s true rewardPool currentBlock).state = s ∧
      (DeclareCandidacyData.Run env declare tx s true rewardPool currentBlock).rewardPool =
        rewardPool) ∧
    ((RecreateCoinData.Run env recreate tx (StateInterface.ofCheckState s) rewardPool
        currentBlock).state = s ∧
      (RecreateCoinData.Run env recreate tx (StateInterface.ofCheckState s) rewardPool
        currentBlock).rewardPool = rewardPool) := by
  constructor
  · rcases declare_Run_frame env declare tx s true rewardPool currentBlock with
      hsame | ⟨hmode, _⟩
    · exact hsame
    · cases hmode
  · rcases recreate_Run_frame env recreate tx (StateInterface.ofCheckState s)
      rewardPool currentBlock with hsame | ⟨⟨s1, hmode⟩, _⟩
    · exact hsame
    · cases hmode

/-- C2: a Deliver-mode run of Declare-Candidacy or Recreate-Coin that does not return OK (any
other code, or no response at all) leaves the whole state and the reward pool identical to
those before the call. -/
theorem failed_deliver_leaves_state_unchanged (env : Env) (declare : DeclareCandidacyData)
    (recreate : RecreateCoinData) (tx : Transaction) (s : State) (rewardPool : Int)
    (currentBlock : Nat) :
    ((DeclareCandidacyData.Run env declare tx s false rewardPool currentBlock).code ≠
        some Code.OK →
      (DeclareCandidacyData.Run env declare tx s false rewardPool currentBlock).state = s ∧
      (DeclareCandidacyData.Run env declare tx s false rewardPool currentBlock).rewardPool =
        rewardPool) ∧
    ((RecreateCoinData.Run env recreate tx (StateInterface.ofState s) rewardPool
        currentBlock).code ≠ some Code.OK →
      (RecreateCoinData.Run env recreate tx (StateInterface.ofState s) rewardPool
        currentBlock).state = s ∧
      (RecreateCoinData.Run env recreate tx (StateInterface.ofState s) rewardPool
        currentBlock).rewardPool = rewardPool) := by
  constructor
  · intro hfail
    rcases declare_Run_frame env declare tx s false rewardPool currentBlock with
      hsame | ⟨_, hok⟩
    · exact hsame
    · exact absurd hok hfail
  · intro hfail
    rcases recreate_Run_frame env recreate tx (StateInterface.ofState s)
      rewardPool currentBlock with hsame | ⟨_, hok⟩
    · exact hsame
    · exact absurd hok hfail

/-- Witness of C2: a declaration with stake 2000 against a balance of 1000 fails with
InsufficientFunds, a recreation with CRR 9 fails with WrongCrr, and both leave the example
state and the reward pool untouched. -/
theorem failed_deliver_leaves_state_unchanged_witness :
    ((DeclareCandidacyData.Run exampleEnv { exampleDeclare with Stake := some 2000 } exampleTx
        exampleState false 0 1).code = some Code.InsufficientFunds ∧
      (DeclareCandidacyData.Run exampleEnv { exampleDeclare with Stake := some 2000 } exampleTx
        exampleState false 0 1).state = exampleState ∧
      (DeclareCandidacyData.Run exampleEnv { exampleDeclare with Stake := some 2000 } exampleTx
        exampleState false 0 1).rewardPool = 0) ∧
    ((RecreateCoinData.Run exampleEnv { exampleRecreate with ConstantReserveRatio := 9 }
        exampleTx (StateInterface.ofState exampleState) 0 1).code = some Code.WrongCrr ∧
      (RecreateCoinData.Run exampleEnv { exampleRecreate with ConstantReserveRatio := 9 }
        exampleTx (StateInterface.ofState exampleState) 0 1).state = exampleState ∧
      (RecreateCoinData.Run exampleEnv { exampleRecreate with ConstantReserveRatio := 9 }
        exampleTx (StateInterface.ofState exampleState) 0 1).rewardPool = 0) :=
  ⟨⟨by decide,
    (failed_deliver_leaves_state_unchanged exampleEnv { exampleDeclare with Stake := some 2000 }
      { exampleRecreate with ConstantReserveRatio := 9 } exampleTx exampleState 0 1).1
      (by decide)⟩,
   ⟨by decide,
    (failed_deliver_leaves_state_unchanged exampleEnv { exampleDeclare with Stake := some 2000 }
      { exampleRecreate with ConstantReserveRatio := 9 } exampleTx exampleState 0 1).2
      (by decide)⟩⟩

/-- C3: from a state in which no balance is negative, a Deliver-mode run of Declare-Candidacy
or Recreate-Coin that returns OK leaves no balance negative; and when the action coin (the
stake coin, resp. the base coin of the reserve contribution) is the gas coin, OK is returned
(in either mode) only if the sender holds at least action amount + commission of it.  The
helper `CheckReserveUnderflow` is taken to answer with error responses only, and the constant
`minCoinSupply` to be non-negative. -/
theorem ok_deliver_keeps_balances_nonnegative (env : Env) (hu : env.UnderflowIsError)
    (hmin : 0 ≤ env.minCoinSupply) (declare : DeclareCandidacyData)
    (recreate : RecreateCoinData) (tx : Transaction) (s : State) (rewardPool : Int)
    (currentBlock : Nat) (hbal : ∀ a c, 0 ≤ s.balance a c) :
    ((DeclareCandidacyData.Run env declare tx s false rewardPool currentBlock).code =
        some Code.OK →
      ∀ a c, 0 ≤ (DeclareCandidacyData.Run env declare tx s false rewardPool
        currentBlock).state.balance a c) ∧
    ((RecreateCoinData.Run env recreate tx (StateInterface.ofState s) rewardPool
        currentBlock).code = some Code.OK →
      ∀ a c, 0 ≤ (RecreateCoinData.Run env recreate tx (StateInterface.ofState s) rewardPool
        currentBlock).state.balance a c) ∧
    (∀ isCheck, (DeclareCandidacyData.Run env declare tx s isCheck rewardPool
        currentBlock).code = some Code.OK → declare.Coin = tx.GasCoin →
      ∃ stake commission, declare.Stake = some stake ∧
        DeclareCandidacyData.gasCommission env tx s
          ((tx.GasPrice : Int) * tx.Gas * env.CommissionMultiplier) = Except.ok commission ∧
        stake + commission ≤ s.balance tx.Sender tx.GasCoin) ∧
    (∀ context, context.view = s →
      (RecreateCoinData.Run env recreate tx context rewardPool currentBlock).code =
        some Code.OK → tx.GasCoin = env.BaseCoinID →
      ∃ reserve commission, recreate.InitialReserve = some reserve ∧
        RecreateCoinData.gasCommission env tx s (tx.CommissionInBaseCoin env) =
          Except.ok commission ∧
        reserve + commission ≤ s.balance tx.Sender tx.GasCoin) := by
  refine ⟨?_, ?_, ?_, ?_⟩
  · intro hok a c
    obtain ⟨stake, commission, _, _, _, h1, h2, h3, hst, _⟩ :=
      declare_Run_ok env hu declare tx s false rewardPool currentBlock hok
    rw [hst]
    simp only [Bool.false_eq_true, if_false, declare_deliver_balance]
    have hb := hbal a c
    split_ifs with ha hc <;> try omega
    · obtain ⟨ha1, ha2⟩ := ha
      obtain ⟨_, hc2⟩ := hc
      subst ha1
      have := h3 (ha2.symm.trans hc2)
      subst hc2
      omega
    · obtain ⟨ha1, ha2⟩ := ha
      subst ha1; subst ha2
      omega
    · rename_i hg
      obtain ⟨hg1, hg2⟩ := hg
      subst hg1; subst hg2
      omega
  · intro hok a c
    obtain ⟨amount, reserve, maxSupply, commission, ha, hr, hm, hbc, _, h1, h2, h3, hst, _⟩ :=
      recreate_Run_ok env hu recreate tx (StateInterface.ofState s) rewardPool currentBlock hok
    rw [hst]
    simp only [StateInterface.isCheck, StateInterface.view, Bool.false_eq_true, if_false,
      recreate_deliver_balance] at h1 h2 h3 ⊢
    have hamount : 0 ≤ amount := by
      unfold RecreateCoinData.BasicCheck at hbc
      simp only [ha, hr, hm] at hbc
      split_ifs at hbc with c1 c2
      simp only [not_or, not_lt] at c2
      omega
    have hb := hbal a c
    split_ifs with p1 p2 p3 p3 p2 p3 p3 <;> try omega
    all_goals
      first
      | (obtain ⟨q1, q2⟩ := p1
         obtain ⟨_, q3⟩ := p2
         subst q1
         have := h3 (q3.symm.trans q2)
         subst q2
         omega)
      | (obtain ⟨q1, q2⟩ := p1
         subst q1; subst q2
         omega)
      | (obtain ⟨q1, q2⟩ := p2
         subst q1; subst q2
         omega)
  · intro isCheck hok hc
    obtain ⟨stake, commission, hs, _, hg, _, _, h3, _, _⟩ :=
      declare_Run_ok env hu declare tx s isCheck rewardPool currentBlock hok
    exact ⟨stake, commission, hs, hg, h3 hc⟩
  · intro context hv hok hc
    obtain ⟨_, reserve, _, commission, _, hr, _, _, hg, _, _, h3, _, _⟩ :=
      recreate_Run_ok env hu recreate tx context rewardPool currentBlock hok
    rw [hv] at hg h3
    refine ⟨reserve, commission, hr, hg, ?_⟩
    rw [hc]
    exact h3 hc

/-- Witness of C3: the spec's scenario (balance 1000, stake 100, commission 10, all in the
base coin) and a recreation of `TEST` with reserve 200 paid from the same account. -/
theorem ok_deliver_keeps_balances_nonnegative_witness :
    (DeclareCandidacyData.Run exampleEnv exampleDeclare exampleTx exampleState false 0
        1).code = some Code.OK ∧
    (RecreateCoinData.Run exampleEnv exampleRecreate exampleTx
        (StateInterface.ofState exampleState) 0 1).code = some Code.OK ∧
    (∀ a c, 0 ≤ (DeclareCandidacyData.Run exampleEnv exampleDeclare exampleTx exampleState
        false 0 1).state.balance a c) ∧
    (∀ a c, 0 ≤ (RecreateCoinData.Run exampleEnv exampleRecreate exampleTx
        (StateInterface.ofState exampleState) 0 1).state.balance a c) ∧
    (∃ stake commission, exampleDeclare.Stake = some stake ∧
      DeclareCandidacyData.gasCommission exampleEnv exampleTx exampleState
        ((exampleTx.GasPrice : Int) * exampleTx.Gas * exampleEnv.CommissionMultiplier) =
          Except.ok commission ∧
      stake + commission ≤ exampleState.balance exampleTx.Sender exampleTx.GasCoin) ∧
    (∃ reserve commission, exampleRecreate.InitialReserve = some reserve ∧
      RecreateCoinData.gasCommission exampleEnv exampleTx exampleState
        (exampleTx.CommissionInBaseCoin exampleEnv) = Except.ok commission ∧
      reserve + commission ≤ exampleState.balance exampleTx.Sender exampleTx.GasCoin) :=
  ⟨by decide, by decide,
   (ok_deliver_keeps_balances_nonnegative exampleEnv exampleEnv_underflowIsError (by decide)
      exampleDeclare exampleRecreate exampleTx exampleState 0 1
      exampleState_balance_nonneg).1 (by decide),
   (ok_deliver_keeps_balances_nonnegative exampleEnv exampleEnv_underflowIsError (by decide)
      exampleDeclare exampleRecreate exampleTx exampleState 0 1
      exampleState_balance_nonneg).2.1 (by decide),
   (ok_deliver_keeps_balances_nonnegative exampleEnv exampleEnv_underflowIsError (by decide)
      exampleDeclare exampleRecreate exampleTx exampleState 0 1
      exampleState_balance_nonneg).2.2.1 false (by decide) (by decide),
   (ok_deliver_keeps_balances_nonnegative exampleEnv exampleEnv_underflowIsError (by decide)
      exampleDeclare exampleRecreate exampleTx exampleState 0 1
      exampleState_balance_nonneg).2.2.2 (StateInterface.ofState exampleState) rfl
      (by decide) (by decide)⟩

theorem declare_BasicCheck_none (env : Env) (data : DeclareCandidacyData)
    (tx : Transaction) (s : State)
    (h : DeclareCandidacyData.BasicCheck env data tx s = none) :
    data.Stake ≠ none ∧ Coins.Exists s data.Coin = true ∧
      Candidates.Exists s data.PubKey = false ∧
      minCommission ≤ data.Commission ∧ data.Commission ≤ maxCommission := by
  unfold DeclareCandidacyData.BasicCheck at h
  split_ifs at h with h1 h2 h3 h4
  simp only [not_or, not_lt] at h4
  simp only [Bool.not_eq_true, Bool.not_eq_false] at h2 h3
  exact ⟨h1, h2, h3, h4.1, h4.2⟩

theorem declare_gasCommission_base (env : Env) (tx : Transaction) (s : State) (cib : Int)
    (hbase : tx.GasCoin = env.BaseCoinID) :
    DeclareCandidacyData.gasCommission env tx s cib = Except.ok cib := by
  simp [DeclareCandidacyData.gasCommission, IsBaseCoin, hbase]

theorem declare_deliver_candidates (data : DeclareCandidacyData) (tx : Transaction)
    (s : State) (stake cib commission : Int)
    (hnew : Candidates.Exists s data.PubKey = false) :
    (DeclareCandidacyData.deliver data tx s stake cib commission).candidates =
      s.candidates ++
        [{ RewardAddress := data.Address, OwnerAddress := tx.Sender, PubKey := data.PubKey,
           Commission := data.Commission,
           Delegations := [{ Owner := tx.Sender, Coin := data.Coin, Value := stake,
                             BipValue := 0 }] }] := by
  simp only [DeclareCandidacyData.deliver, Accounts.SetNonce, Candidates.Delegate,
    Candidates.Create, Accounts.SubBalance, Coins.SubVolume, Coins.SubReserve,
    List.map_append, List.map_cons, List.map_nil, if_true, List.nil_append]
  congr 1
  simp only [Candidates.Exists, List.any_eq_false, decide_eq_true_eq] at hnew
  calc List.map _ s.candidates = List.map id s.candidates := by
        apply List.map_congr_left
        intro c hc
        simp [hnew c hc]
    _ = s.candidates := List.map_id _

theorem recreate_deliver_coin (env : Env) (data : RecreateCoinData)
    (tx : Transaction) (s : State) (amount reserve maxSupply cib commission : Int) :
    (RecreateCoinData.deliver env data tx s amount reserve maxSupply cib commission).coins
        (App.GetNextCoinID s) =
      some { CName := "", CSymbol := data.Symbol, Volume := amount, Reserve := reserve,
             Crr := data.ConstantReserveRatio, MaxSupply := maxSupply } := by
  simp [RecreateCoinData.deliver, Accounts.SetNonce, Accounts.AddBalance,
    App.SetCoinsCount, Coins.Recreate, App.GetNextCoinID, Accounts.SubBalance,
    Coins.SubVolume, Coins.SubReserve]

theorem recreate_deliver_coinsCount (env : Env) (data : RecreateCoinData)
    (tx : Transaction) (s : State) (amount reserve maxSupply cib commission : Int) :
    (RecreateCoinData.deliver env data tx s amount reserve maxSupply cib
        commission).coinsCount = App.GetNextCoinID s := by
  simp [RecreateCoinData.deliver, Accounts.SetNonce, Accounts.AddBalance,
    App.SetCoinsCount, Coins.Recreate, App.GetNextCoinID, Accounts.SubBalance,
    Coins.SubVolume, Coins.SubReserve]

/-- C4: a Deliver-mode Declare-Candidacy run that returns OK lowers the sender's balance by
the stake in the stake coin and by the commission in the gas coin (by stake + gas price * gas
* multiplier when stake coin = gas coin = base coin), appends a candidate record with the
declared public key and commission, and records at it one delegation of the declared stake
in the stake coin from the sender.  The helper `CheckReserveUnderflow` is taken to answer
with error responses only. -/
theorem declare_deliver_ok_effects (env : Env) (hu : env.UnderflowIsError)
    (data : DeclareCandidacyData) (tx : Transaction) (s : State) (rewardPool : Int)
    (currentBlock : Nat)
    (hok : (DeclareCandidacyData.Run env data tx s false rewardPool currentBlock).code =
      some Code.OK) :
    ∃ stake commission,
      data.Stake = some stake ∧
      DeclareCandidacyData.gasCommission env tx s
        ((tx.GasPrice : Int) * tx.Gas * env.CommissionMultiplier) = Except.ok commission ∧
      (∀ c, (DeclareCandidacyData.Run env data tx s false rewardPool
          currentBlock).state.balance tx.Sender c =
        s.balance tx.Sender c - (if c = data.Coin then stake else 0)
          - (if c = tx.GasCoin then commission else 0)) ∧
      (data.Coin = tx.GasCoin → tx.GasCoin = env.BaseCoinID →
        (DeclareCandidacyData.Run env data tx s false rewardPool
          currentBlock).state.balance tx.Sender env.BaseCoinID =
        s.balance tx.Sender env.BaseCoinID - stake
          - (tx.GasPrice : Int) * tx.Gas * env.CommissionMultiplier) ∧
      (DeclareCandidacyData.Run env data tx s false rewardPool currentBlock).state.candidates =
        s.candidates ++
          [{ RewardAddress := data.Address, OwnerAddress := tx.Sender, PubKey := data.PubKey,
             Commission := data.Commission,
             Delegations := [{ Owner := tx.Sender, Coin := data.Coin, Value := stake,
                               BipValue := 0 }] }] := by
  obtain ⟨stake, commission, hs, hb, hg, _, _, _, hst, _⟩ :=
    declare_Run_ok env hu data tx s false rewardPool currentBlock hok
  obtain ⟨_, _, hnew, _, _⟩ := declare_BasicCheck_none env data tx s hb
  refine ⟨stake, commission, hs, hg, ?_, ?_, ?_⟩
  · intro c
    rw [hst]
    simp [declare_deliver_balance]
  · intro hc hbase
    rw [declare_gasCommission_base env tx s _ hbase] at hg
    simp only [Except.ok.injEq] at hg
    rw [hst]
    simp only [Bool.false_eq_true, if_false, declare_deliver_balance, true_and]
    rw [hc, hbase, ← hg]
    simp
  · rw [hst]
    simp only [Bool.false_eq_true, if_false]
    exact declare_deliver_candidates data tx s stake _ commission hnew

/-- Witness of C4: the spec's scenario, balance 1000, stake 100 and commission 1 * 10 * 1 in
the base coin: the balance after is 890. -/
theorem declare_deliver_ok_effects_witness :
    (DeclareCandidacyData.Run exampleEnv exampleDeclare exampleTx exampleState false 0
        1).code = some Code.OK ∧
    (DeclareCandidacyData.Run exampleEnv exampleDeclare exampleTx exampleState false 0
        1).state.balance [1] 0 = 890 ∧
    ∃ stake commission,
      exampleDeclare.Stake = some stake ∧
      DeclareCandidacyData.gasCommission exampleEnv exampleTx exampleState
        ((exampleTx.GasPrice : Int) * exampleTx.Gas * exampleEnv.CommissionMultiplier) =
          Except.ok commission ∧
      (∀ c, (DeclareCandidacyData.Run exampleEnv exampleDeclare exampleTx exampleState false 0
          1).state.balance exampleTx.Sender c =
        exampleState.balance exampleTx.Sender c - (if c = exampleDeclare.Coin then stake else 0)
          - (if c = exampleTx.GasCoin then commission else 0)) ∧
      (exampleDeclare.Coin = exampleTx.GasCoin → exampleTx.GasCoin = exampleEnv.BaseCoinID →
        (DeclareCandidacyData.Run exampleEnv exampleDeclare exampleTx exampleState false 0
          1).state.balance exampleTx.Sender exampleEnv.BaseCoinID =
        exampleState.balance exampleTx.Sender exampleEnv.BaseCoinID - stake
          - (exampleTx.GasPrice : Int) * exampleTx.Gas * exampleEnv.CommissionMultiplier) ∧
      (DeclareCandidacyData.Run exampleEnv exampleDeclare exampleTx exampleState false 0
          1).state.candidates =
        exampleState.candidates ++
          [{ RewardAddress := exampleDeclare.Address, OwnerAddress := exampleTx.Sender,
             PubKey := exampleDeclare.PubKey, Commission := exampleDeclare.Commission,
             Delegations := [{ Owner := exampleTx.Sender, Coin := exampleDeclare.Coin,
                               Value := stake, BipValue := 0 }] }] :=
  ⟨by decide, by decide,
   declare_deliver_ok_effects exampleEnv exampleEnv_underflowIsError exampleDeclare exampleTx
     exampleState 0 1 (by decide)⟩

/-- Counterexample to C5 as stated: a transaction carrying nonce 7 is delivered with OK by
both handlers from a state where the sender's nonce is 0, and the nonce after is 7, not 1. -/
theorem ok_deliver_nonce_not_previous_plus_one :
    ((DeclareCandidacyData.Run exampleEnv exampleDeclare { exampleTx with Nonce := 7 }
        exampleState false 0 1).code = some Code.OK ∧
      exampleState.nonce [1] = 0 ∧
      (DeclareCandidacyData.Run exampleEnv exampleDeclare { exampleTx with Nonce := 7 }
        exampleState false 0 1).state.nonce [1] = 7) ∧
    ((RecreateCoinData.Run exampleEnv exampleRecreate { exampleTx with Nonce := 7 }
        (StateInterface.ofState exampleState) 0 1).code = some Code.OK ∧
      (RecreateCoinData.Run exampleEnv exampleRecreate { exampleTx with Nonce := 7 }
        (StateInterface.ofState exampleState) 0 1).state.nonce [1] = 7) := by
  decide

/-- C5 (amended): a Deliver-mode run of Declare-Candidacy or Recreate-Coin that returns OK
sets the sender's nonce to the nonce the transaction carries and leaves every other nonce as
it was; so the nonce after is the nonce before plus 1 exactly when the transaction carries
that value.  The helper `CheckReserveUnderflow` is taken to answer with error responses
only. -/
theorem ok_deliver_sets_nonce_to_tx_nonce (env : Env) (hu : env.UnderflowIsError)
    (declare : DeclareCandidacyData) (recreate : RecreateCoinData) (tx : Transaction)
    (s : State) (rewardPool : Int) (currentBlock : Nat) :
    ((DeclareCandidacyData.Run env declare tx s false rewardPool currentBlock).code =
        some Code.OK →
      (∀ a, (DeclareCandidacyData.Run env declare tx s false rewardPool
          currentBlock).state.nonce a = if a = tx.Sender then tx.Nonce else s.nonce a) ∧
      ((DeclareCandidacyData.Run env declare tx s false rewardPool
          currentBlock).state.nonce tx.Sender = s.nonce tx.Sender + 1 ↔
        tx.Nonce = s.nonce tx.Sender + 1)) ∧
    ((RecreateCoinData.Run env recreate tx (StateInterface.ofState s) rewardPool
        currentBlock).code = some Code.OK →
      (∀ a, (RecreateCoinData.Run env recreate tx (StateInterface.ofState s) rewardPool
          currentBlock).state.nonce a = if a = tx.Sender then tx.Nonce else s.nonce a) ∧
      ((RecreateCoinData.Run env recreate tx (StateInterface.ofState s) rewardPool
          currentBlock).state.nonce tx.Sender = s.nonce tx.Sender + 1 ↔
        tx.Nonce = s.nonce tx.Sender + 1)) := by
  constructor
  · intro hok
    obtain ⟨stake, commission, _, _, _, _, _, _, hst, _⟩ :=
      declare_Run_ok env hu declare tx s false rewardPool currentBlock hok
    rw [hst]
    simp [declare_deliver_nonce]
  · intro hok
    obtain ⟨_, _, _, _, _, _, _, _, _, _, _, _, hst, _⟩ :=
      recreate_Run_ok env hu recreate tx (StateInterface.ofState s) rewardPool currentBlock hok
    rw [hst]
    simp [recreate_deliver_nonce, StateInterface.isCheck, StateInterface.view]

/-- Witness of C5 (amended): the example transaction carries nonce 1 and the sender's nonce
is 0 before; after the delivery it is 1. -/
theorem ok_deliver_sets_nonce_to_tx_nonce_witness :
    ((DeclareCandidacyData.Run exampleEnv exampleDeclare exampleTx exampleState false 0
        1).code = some Code.OK ∧
      (∀ a, (DeclareCandidacyData.Run exampleEnv exampleDeclare exampleTx exampleState false 0
          1).state.nonce a =
        if a = exampleTx.Sender then exampleTx.Nonce else exampleState.nonce a) ∧
      ((DeclareCandidacyData.Run exampleEnv exampleDeclare exampleTx exampleState false 0
          1).state.nonce exampleTx.Sender = exampleState.nonce exampleTx.Sender + 1 ↔
        exampleTx.Nonce = exampleState.nonce exampleTx.Sender + 1)) ∧
    ((RecreateCoinData.Run exampleEnv exampleRecreate exampleTx
        (StateInterface.ofState exampleState) 0 1).code = some Code.OK ∧
      (∀ a, (RecreateCoinData.Run exampleEnv exampleRecreate exampleTx
          (StateInterface.ofState exampleState) 0 1).state.nonce a =
        if a = exampleTx.Sender then exampleTx.Nonce else exampleState.nonce a) ∧
      ((RecreateCoinData.Run exampleEnv exampleRecreate exampleTx
          (StateInterface.ofState exampleState) 0 1).state.nonce exampleTx.Sender =
          exampleState.nonce exampleTx.Sender + 1 ↔
        exampleTx.Nonce = exampleState.nonce exampleTx.Sender + 1)) :=
  ⟨⟨by decide,
    (ok_deliver_sets_nonce_to_tx_nonce exampleEnv exampleEnv_underflowIsError exampleDeclare
      exampleRecreate exampleTx exampleState 0 1).1 (by decide)⟩,
   ⟨by decide,
    (ok_deliver_sets_nonce_to_tx_nonce exampleEnv exampleEnv_underflowIsError exampleDeclare
      exampleRecreate exampleTx exampleState 0 1).2 (by decide)⟩⟩

/-- C6: a Deliver-mode Recreate-Coin run that returns OK lowers the sender's balance by
InitialReserve in the base coin and by the commission in the gas coin and raises it by
InitialAmount in the next coin identifier; the record stored under that identifier carries
the payload's symbol, volume InitialAmount, reserve InitialReserve, CRR ConstantReserveRatio
and max supply MaxSupply; and the coin counter is set to that identifier.  The helper
`CheckReserveUnderflow` is taken to answer with error responses only. -/
theorem recreate_deliver_ok_effects (env : Env) (hu : env.UnderflowIsError)
    (data : RecreateCoinData) (tx : Transaction) (s : State) (rewardPool : Int)
    (currentBlock : Nat)
    (hok : (RecreateCoinData.Run env data tx (StateInterface.ofState s) rewardPool
      currentBlock).code = some Code.OK) :
    ∃ amount reserve maxSupply commission,
      data.InitialAmount = some amount ∧
      data.InitialReserve = some reserve ∧
      data.MaxSupply = some maxSupply ∧
      RecreateCoinData.gasCommission env tx s (tx.CommissionInBaseCoin env) =
        Except.ok commission ∧
      (∀ c, (RecreateCoinData.Run env data tx (StateInterface.ofState s) rewardPool
          currentBlock).state.balance tx.Sender c =
        s.balance tx.Sender c - (if c = env.BaseCoinID then reserve else 0)
          - (if c = tx.GasCoin then commission else 0)
          + (if c = App.GetNextCoinID s then amount else 0)) ∧
      (∃ coin, (RecreateCoinData.Run env data tx (StateInterface.ofState s) rewardPool
          currentBlock).state.coins (App.GetNextCoinID s) = some coin ∧
        coin.CSymbol = data.Symbol ∧ coin.Volume = amount ∧ coin.Reserve = reserve ∧
        coin.Crr = data.ConstantReserveRatio ∧ coin.MaxSupply = maxSupply) ∧
      (RecreateCoinData.Run env data tx (StateInterface.ofState s) rewardPool
          currentBlock).state.coinsCount = App.GetNextCoinID s := by
  obtain ⟨amount, reserve, maxSupply, commission, ha, hr, hm, _, hg, _, _, _, hst, _⟩ :=
    recreate_Run_ok env hu data tx (StateInterface.ofState s) rewardPool currentBlock hok
  simp only [StateInterface.isCheck, StateInterface.view, Bool.false_eq_true, if_false]
    at hg hst
  refine ⟨amount, reserve, maxSupply, commission, ha, hr, hm, hg, ?_, ?_, ?_⟩
  · intro c
    rw [hst]
    simp [recreate_deliver_balance, App.GetNextCoinID]
  · rw [hst, recreate_deliver_coin]
    exact ⟨_, rfl, rfl, rfl, rfl, rfl, rfl⟩
  · rw [hst, recreate_deliver_coinsCount]

/-- Witness of C6: the recreation of `TEST` (amount 500, reserve 200, CRR 50, max supply
1000) paid in the base coin: the base balance goes from 1000 to 790, the new coin 2 is held
with 500. -/
theorem recreate_deliver_ok_effects_witness :
    (RecreateCoinData.Run exampleEnv exampleRecreate exampleTx
        (StateInterface.ofState exampleState) 0 1).code = some Code.OK ∧
    (RecreateCoinData.Run exampleEnv exampleRecreate exampleTx
        (StateInterface.ofState exampleState) 0 1).state.balance [1] 0 = 790 ∧
    (RecreateCoinData.Run exampleEnv exampleRecreate exampleTx
        (StateInterface.ofState exampleState) 0 1).state.balance [1] 2 = 500 ∧
    ∃ amount reserve maxSupply commission,
      exampleRecreate.InitialAmount = some amount ∧
      exampleRecreate.InitialReserve = some reserve ∧
      exampleRecreate.MaxSupply = some maxSupply ∧
      RecreateCoinData.gasCommission exampleEnv exampleTx exampleState
        (exampleTx.CommissionInBaseCoin exampleEnv) = Except.ok commission ∧
      (∀ c, (RecreateCoinData.Run exampleEnv exampleRecreate exampleTx
          (StateInterface.ofState exampleState) 0 1).state.balance exampleTx.Sender c =
        exampleState.balance exampleTx.Sender c
          - (if c = exampleEnv.BaseCoinID then reserve else 0)
          - (if c = exampleTx.GasCoin then commission else 0)
          + (if c = App.GetNextCoinID exampleState then amount else 0)) ∧
      (∃ coin, (RecreateCoinData.Run exampleEnv exampleRecreate exampleTx
          (StateInterface.ofState exampleState) 0 1).state.coins
            (App.GetNextCoinID exampleState) = some coin ∧
        coin.CSymbol = exampleRecreate.Symbol ∧ coin.Volume = amount ∧
        coin.Reserve = reserve ∧ coin.Crr = exampleRecreate.ConstantReserveRatio ∧
        coin.MaxSupply = maxSupply) ∧
      (RecreateCoinData.Run exampleEnv exampleRecreate exampleTx
          (StateInterface.ofState exampleState) 0 1).state.coinsCount =
        App.GetNextCoinID exampleState :=
  ⟨by decide, by decide, by decide,
   recreate_deliver_ok_effects exampleEnv exampleEnv_underflowIsError exampleRecreate
     exampleTx exampleState 0 1 (by decide)⟩

theorem declare_Run_of_BasicCheck_some (env : Env) (data : DeclareCandidacyData)
    (tx : Transaction) (s : State) (isCheck : Bool) (rp : Int) (h : Nat) (r : Response)
    (hb : DeclareCandidacyData.BasicCheck env data tx s = some r) :
    DeclareCandidacyData.Run env data tx s isCheck rp h = RunResult.returned r s rp := by
  unfold DeclareCandidacyData.Run
  simp only [hb]

theorem recreate_Run_of_BasicCheck_some (env : Env) (data : RecreateCoinData)
    (tx : Transaction) (context : StateInterface) (rp : Int) (h : Nat) (r : Response)
    (hb : RecreateCoinData.BasicCheck env data tx context.view = some r) :
    RecreateCoinData.Run env data tx context rp h = RunResult.returned r context.view rp := by
  unfold RecreateCoinData.Run
  simp only [hb]

theorem recreate_BasicCheck_none_iff (env : Env) (data : RecreateCoinData)
    (tx : Transaction) (s : State) :
    RecreateCoinData.BasicCheck env data tx s = none ↔
      ∃ amount reserve maxSupply,
        data.InitialAmount = some amount ∧ data.InitialReserve = some reserve ∧
        data.MaxSupply = some maxSupply ∧
        10 ≤ data.ConstantReserveRatio ∧ data.ConstantReserveRatio ≤ 100 ∧
        env.minCoinSupply ≤ amount ∧ amount ≤ maxSupply ∧
        maxSupply ≤ env.maxCoinSupply ∧
        env.minCoinReserve ≤ reserve ∧
        ∃ coin, Coins.GetCoinBySymbol s data.Symbol = some coin ∧
          ∃ info, Coins.GetSymbolInfo s coin.CSymbol = some info ∧
            info.OwnerAddress = some tx.Sender := by
  unfold RecreateCoinData.BasicCheck
  constructor
  · intro h
    split at h
    · rename_i reserve amount maxSupply hr ha hm
      split_ifs at h with c1 c2 c3 c4
      simp only at h
      split at h
      · simp at h
      · rename_i coin hcoin
        split at h
        · rename_i owner hinfo
          split_ifs at h with c5
          simp only [not_or, not_lt, ne_eq, not_not] at c1 c2 c3 c4 c5
          exact ⟨amount, reserve, maxSupply, ha, hr, hm, c1.1, c1.2, c2.1, c2.2, c3, c4,
            coin, hcoin, _, hinfo, by simp [c5]⟩
        · simp at h
    · simp at h
  · rintro ⟨amount, reserve, maxSupply, ha, hr, hm, k1, k2, k3, k4, k5, k6, coin, hcoin,
      info, hinfo, hown⟩
    obtain ⟨owner⟩ := info
    simp only at hown
    subst hown
    simp only [ha, hr, hm, hcoin, hinfo]
    have e1 : ¬ (data.ConstantReserveRatio < 10 ∨ data.ConstantReserveRatio > 100) := by omega
    have e2 : ¬ (amount < env.minCoinSupply ∨ amount > maxSupply) := by omega
    have e3 : ¬ (maxSupply > env.maxCoinSupply) := by omega
    have e4 : ¬ (reserve < env.minCoinReserve) := by omega
    simp [e1, e2, e3, e4]

/-- C7: `DeclareCandidacyData.Run` (in either mode) returns OK only if
`minCommission = 0 <= commission <= 100 = maxCommission`; and an input whose commission
exceeds 100 (in particular 101), with the stake present, the stake coin existing and the
public key not registered, fails with code WrongCommission. -/
theorem declare_commission_range (env : Env) (data : DeclareCandidacyData)
    (tx : Transaction) (s : State) (isCheck : Bool) (rewardPool : Int) (currentBlock : Nat) :
    ((DeclareCandidacyData.Run env data tx s isCheck rewardPool currentBlock).code =
        some Code.OK →
      0 ≤ data.Commission ∧ data.Commission ≤ 100) ∧
    (data.Stake ≠ none → Coins.Exists s data.Coin = true →
      Candidates.Exists s data.PubKey = false → 100 < data.Commission →
      (DeclareCandidacyData.Run env data tx s isCheck rewardPool currentBlock).code =
        some Code.WrongCommission) := by
  constructor
  · intro hok
    cases hb : DeclareCandidacyData.BasicCheck env data tx s with
    | some r =>
      rw [declare_Run_of_BasicCheck_some env data tx s isCheck rewardPool currentBlock r hb]
        at hok
      simp only [RunResult.code, RunResult.returned, Option.map_some', Option.some.injEq]
        at hok
      exact absurd hok (declare_BasicCheck_code env data tx s r hb)
    | none =>
      obtain ⟨_, _, _, _, hmax⟩ := declare_BasicCheck_none env data tx s hb
      exact ⟨Nat.zero_le _, hmax⟩
  · intro hstake hcoin hkey hcomm
    have hb : DeclareCandidacyData.BasicCheck env data tx s =
        some { Code := Code.WrongCommission
               Log := "Commission should be between 0 and 100"
               Info := [("got_commission", toString data.Commission)] } := by
      unfold DeclareCandidacyData.BasicCheck
      have hc : data.Commission < minCommission ∨ data.Commission > maxCommission := by
        right
        exact hcomm
      simp [hstake, hcoin, hkey, hc]
    rw [declare_Run_of_BasicCheck_some env data tx s isCheck rewardPool currentBlock _ hb]
    rfl

/-- Witness of C7: the example declaration succeeds with commission 10, and with commission
101 it fails with WrongCommission. -/
theorem declare_commission_range_witness :
    ((DeclareCandidacyData.Run exampleEnv exampleDeclare exampleTx exampleState false 0
        1).code = some Code.OK ∧
      0 ≤ exampleDeclare.Commission ∧ exampleDeclare.Commission ≤ 100) ∧
    ({ exampleDeclare with Commission := 101 } : DeclareCandidacyData).Commission = 101 ∧
    (DeclareCandidacyData.Run exampleEnv { exampleDeclare with Commission := 101 } exampleTx
        exampleState false 0 1).code = some Code.WrongCommission :=
  ⟨⟨by decide,
    (declare_commission_range exampleEnv exampleDeclare exampleTx exampleState false 0 1).1
      (by decide)⟩,
   rfl,
   (declare_commission_range exampleEnv { exampleDeclare with Commission := 101 } exampleTx
      exampleState false 0 1).2 (by decide) (by decide) (by decide) (by decide)⟩

/-- C8: `RecreateCoinData.Run` (on either context) returns OK only if
`10 <= ConstantReserveRatio <= 100` and `InitialReserve >= minCoinReserve`; an input with the
three amounts present and a CRR outside that range (in particular 9) fails with code
WrongCrr; and an input with the three amounts present, a CRR in range and `InitialReserve`
below `minCoinReserve` (in particular `minCoinReserve - 1`) fails with code
WrongCoinSupply. -/
theorem recreate_crr_and_reserve_range (env : Env) (data : RecreateCoinData)
    (tx : Transaction) (context : StateInterface) (rewardPool : Int) (currentBlock : Nat) :
    ((RecreateCoinData.Run env data tx context rewardPool currentBlock).code =
        some Code.OK →
      10 ≤ data.ConstantReserveRatio ∧ data.ConstantReserveRatio ≤ 100 ∧
      ∃ reserve, data.InitialReserve = some reserve ∧ env.minCoinReserve ≤ reserve) ∧
    (data.InitialAmount ≠ none → data.InitialReserve ≠ none → data.MaxSupply ≠ none →
      data.ConstantReserveRatio < 10 ∨ 100 < data.ConstantReserveRatio →
      (RecreateCoinData.Run env data tx context rewardPool currentBlock).code =
        some Code.WrongCrr) ∧
    (∀ reserve, data.InitialAmount ≠ none → data.InitialReserve = some reserve →
      data.MaxSupply ≠ none →
      10 ≤ data.ConstantReserveRatio → data.ConstantReserveRatio ≤ 100 →
      reserve < env.minCoinReserve →
      (RecreateCoinData.Run env data tx context rewardPool currentBlock).code =
        some Code.WrongCoinSupply) := by
  refine ⟨?_, ?_, ?_⟩
  · intro hok
    cases hb : RecreateCoinData.BasicCheck env data tx context.view with
    | some r =>
      rw [recreate_Run_of_BasicCheck_some env data tx context rewardPool currentBlock r hb]
        at hok
      simp only [RunResult.code, RunResult.returned, Option.map_some', Option.some.injEq]
        at hok
      exact absurd hok (recreate_BasicCheck_code env data tx _ r hb)
    | none =>
      obtain ⟨_, reserve, _, _, hr, _, k1, k2, _, _, _, k6, _⟩ :=
        (recreate_BasicCheck_none_iff env data tx context.view).1 hb
      exact ⟨k1, k2, reserve, hr, k6⟩
  · intro ha hr hm hcrr
    obtain ⟨amount, ha⟩ := Option.ne_none_iff_exists'.1 ha
    obtain ⟨reserve, hr⟩ := Option.ne_none_iff_exists'.1 hr
    obtain ⟨maxSupply, hm⟩ := Option.ne_none_iff_exists'.1 hm
    have hb : RecreateCoinData.BasicCheck env data tx context.view =
        some { Code := Code.WrongCrr
               Log := "Constant Reserve Ratio should be between 10 and 100" } := by
      unfold RecreateCoinData.BasicCheck
      have hc : data.ConstantReserveRatio < 10 ∨ data.ConstantReserveRatio > 100 := hcrr
      simp [ha, hr, hm, hc]
    rw [recreate_Run_of_BasicCheck_some env data tx context rewardPool currentBlock _ hb]
    rfl
  · intro reserve ha hr hm k1 k2 hlow
    obtain ⟨amount, ha⟩ := Option.ne_none_iff_exists'.1 ha
    obtain ⟨maxSupply, hm⟩ := Option.ne_none_iff_exists'.1 hm
    have hb : ∃ r, RecreateCoinData.BasicCheck env data tx context.view = some r ∧
        r.Code = Code.WrongCoinSupply := by
      unfold RecreateCoinData.BasicCheck
      have hc : ¬ (data.ConstantReserveRatio < 10 ∨ data.ConstantReserveRatio > 100) := by
        omega
      simp only [ha, hr, hm, hc, if_false]
      split_ifs
      · exact ⟨_, rfl, rfl⟩
      · exact ⟨_, rfl, rfl⟩
      · exact ⟨_, rfl, rfl⟩
    obtain ⟨r, hb, hcode⟩ := hb
    rw [recreate_Run_of_BasicCheck_some env data tx context rewardPool currentBlock _ hb]
    simp [RunResult.code, RunResult.returned, hcode]

/-- Witness of C8: the example recreation succeeds with CRR 50 and reserve 200; with CRR 9
it fails with WrongCrr; with reserve `minCoinReserve - 1 = 99` it fails with
WrongCoinSupply. -/
theorem recreate_crr_and_reserve_range_witness :
    ((RecreateCoinData.Run exampleEnv exampleRecreate exampleTx
        (StateInterface.ofState exampleState) 0 1).code = some Code.OK ∧
      10 ≤ exampleRecreate.ConstantReserveRatio ∧ exampleRecreate.ConstantReserveRatio ≤ 100 ∧
      ∃ reserve, exampleRecreate.InitialReserve = some reserve ∧
        exampleEnv.minCoinReserve ≤ reserve) ∧
    (RecreateCoinData.Run exampleEnv { exampleRecreate with ConstantReserveRatio := 9 }
        exampleTx (StateInterface.ofState exampleState) 0 1).code = some Code.WrongCrr ∧
    (RecreateCoinData.Run exampleEnv
        { exampleRecreate with InitialReserve := some (exampleEnv.minCoinReserve - 1) }
        exampleTx (StateInterface.ofState exampleState) 0 1).code =
      some Code.WrongCoinSupply :=
  ⟨⟨by decide,
    (recreate_crr_and_reserve_range exampleEnv exampleRecreate exampleTx
      (StateInterface.ofState exampleState) 0 1).1 (by decide)⟩,
   (recreate_crr_and_reserve_range exampleEnv { exampleRecreate with ConstantReserveRatio := 9 }
      exampleTx (StateInterface.ofState exampleState) 0 1).2.1 (by decide) (by decide)
      (by decide) (by decide),
   (recreate_crr_and_reserve_range exampleEnv
      { exampleRecreate with InitialReserve := some (exampleEnv.minCoinReserve - 1) }
      exampleTx (StateInterface.ofState exampleState) 0 1).2.2
      (exampleEnv.minCoinReserve - 1) (by decide) rfl (by decide) (by decide) (by decide)
      (by decide)⟩

/-- C9: `RecreateCoinData.BasicCheck` returns no error exactly when the three amounts are
present, `10 <= ConstantReserveRatio <= 100`, `minCoinSupply <= InitialAmount <= MaxSupply`,
`MaxSupply <= maxCoinSupply`, `InitialReserve >= minCoinReserve`, the symbol resolves to an
existing coin, and the symbol record of that coin's symbol has an owner equal to the sender;
and the code it returns otherwise is that of the first violated rule in this order. -/
theorem recreate_BasicCheck_spec (env : Env) (data : RecreateCoinData) (tx : Transaction)
    (s : State) :
    (RecreateCoinData.BasicCheck env data tx s = none ↔
      ∃ amount reserve maxSupply,
        data.InitialAmount = some amount ∧ data.InitialReserve = some reserve ∧
        data.MaxSupply = some maxSupply ∧
        10 ≤ data.ConstantReserveRatio ∧ data.ConstantReserveRatio ≤ 100 ∧
        env.minCoinSupply ≤ amount ∧ amount ≤ maxSupply ∧
        maxSupply ≤ env.maxCoinSupply ∧
        env.minCoinReserve ≤ reserve ∧
        ∃ coin, Coins.GetCoinBySymbol s data.Symbol = some coin ∧
          ∃ info, Coins.GetSymbolInfo s coin.CSymbol = some info ∧
            info.OwnerAddress = some tx.Sender) ∧
    (RecreateCoinData.BasicCheck env data tx s).map (fun r => r.Code) =
      RecreateCoinData.firstViolatedRule env data tx s := by
  refine ⟨recreate_BasicCheck_none_iff env data tx s, ?_⟩
  unfold RecreateCoinData.BasicCheck RecreateCoinData.firstViolatedRule
    RecreateCoinData.staticRules
  cases ha : data.InitialAmount with
  | none => cases data.InitialReserve <;> simp [List.find?]
  | some amount =>
    cases hr : data.InitialReserve with
    | none => simp [List.find?]
    | some reserve =>
      cases hm : data.MaxSupply with
      | none => simp [List.find?]
      | some maxSupply =>
        simp only [Option.isSome_some, Bool.and_self]
        by_cases c1 : data.ConstantReserveRatio < 10 ∨ data.ConstantReserveRatio > 100
        · have d1 : ¬ (10 ≤ data.ConstantReserveRatio ∧ data.ConstantReserveRatio ≤ 100) := by
            omega
          simp [List.find?, c1, d1]
        · have d1 : 10 ≤ data.ConstantReserveRatio ∧ data.ConstantReserveRatio ≤ 100 := by
            omega
          by_cases c2 : amount < env.minCoinSupply ∨ amount > maxSupply
          · have d2 : ¬ (env.minCoinSupply ≤ amount ∧ amount ≤ maxSupply) := by omega
            simp [List.find?, c1, d1, c2, d2]
          · have d2 : env.minCoinSupply ≤ amount ∧ amount ≤ maxSupply := by omega
            by_cases c3 : maxSupply > env.maxCoinSupply
            · have d3 : ¬ (maxSupply ≤ env.maxCoinSupply) := by omega
              simp [List.find?, c1, d1, c2, d2, c3, d3]
            · have d3 : maxSupply ≤ env.maxCoinSupply := by omega
              by_cases c4 : reserve < env.minCoinReserve
              · have d4 : ¬ (env.minCoinReserve ≤ reserve) := by omega
                simp [List.find?, c1, d1, c2, d2, c3, d3, c4, d4]
              · have d4 : env.minCoinReserve ≤ reserve := by omega
                cases hcoin : Coins.GetCoinBySymbol s data.Symbol with
                | none => simp [List.find?, c1, d1, c2, d2, c3, d3, c4, d4]
                | some coin =>
                  cases hinfo : Coins.GetSymbolInfo s coin.CSymbol with
                  | none => simp [List.find?, c1, d1, c2, d2, c3, d3, c4, d4, hinfo]
                  | some info =>
                    obtain ⟨owner⟩ := info
                    cases owner with
                    | none => simp [List.find?, c1, d1, c2, d2, c3, d3, c4, d4, hinfo]
                    | some owner =>
                      by_cases c5 : owner = tx.Sender
                      · simp [List.find?, c1, d1, c2, d2, c3, d3, c4, d4, c5, hinfo]
                      · simp [List.find?, c1, d1, c2, d2, c3, d3, c4, d4, c5, hinfo]

/-- C10: a Declare-Candidacy transaction that passes static validation, the candidate-capacity
rule and the gas-coin reserve checks, and whose sender holds less of the stake coin than the
declared stake, gets code InsufficientFunds in Check and in Deliver mode; state and reward
pool are left as they were, so no candidate is created and the sender's nonce is
unchanged. -/
theorem declare_low_stake_balance_insufficient_funds (env : Env)
    (data : DeclareCandidacyData) (tx : Transaction) (s : State) (isCheck : Bool)
    (rewardPool : Int) (currentBlock : Nat) (stake commission : Int)
    (hstatic : DeclareCandidacyData.BasicCheck env data tx s = none)
    (hstake : data.Stake = some stake)
    (hcapacity : ¬ (Candidates.Count s ≥ env.GetCandidatesCountForBlock currentBlock ∧
      ¬ env.IsNewCandidateStakeSufficient s data.Coin stake
        (env.GetCandidatesCountForBlock currentBlock)))
    (hreserve : DeclareCandidacyData.gasCommission env tx s
      ((tx.GasPrice : Int) * tx.Gas * env.CommissionMultiplier) = Except.ok commission)
    (hlow : Accounts.GetBalance s tx.Sender data.Coin < stake) :
    (DeclareCandidacyData.Run env data tx s isCheck rewardPool currentBlock).code =
      some Code.InsufficientFunds ∧
    (DeclareCandidacyData.Run env data tx s isCheck rewardPool currentBlock).state = s ∧
    (DeclareCandidacyData.Run env data tx s isCheck rewardPool currentBlock).state.candidates =
      s.candidates ∧
    (DeclareCandidacyData.Run env data tx s isCheck rewardPool currentBlock).state.nonce
      tx.Sender = s.nonce tx.Sender ∧
    (DeclareCandidacyData.Run env data tx s isCheck rewardPool currentBlock).rewardPool =
      rewardPool := by
  have hrun : DeclareCandidacyData.Run env data tx s isCheck rewardPool currentBlock =
      RunResult.returned
        { Code := Code.InsufficientFunds
          Log := "Insufficient funds for sender account: " ++ env.addressString tx.Sender ++
            ". Wanted " ++ bigString stake ++ " " ++ env.coinString data.Coin
          Info := [("sender", env.addressString tx.Sender),
                   ("needed_value", bigString stake),
                   ("coin", env.coinString data.Coin)] }
        s rewardPool := by
    unfold DeclareCandidacyData.Run
    simp only [hstatic, hstake, hreserve]
    rw [if_neg hcapacity, if_pos hlow]
  rw [hrun]
  exact ⟨rfl, rfl, rfl, rfl, rfl⟩

/-- Witness of C10: address `[2]` holds nothing and declares a stake of 1 in the base coin:
InsufficientFunds in Deliver mode, no candidate, nonce still 0. -/
theorem declare_low_stake_balance_insufficient_funds_witness :
    Accounts.GetBalance exampleState [2] 0 = 0 ∧
    (DeclareCandidacyData.Run exampleEnv { exampleDeclare with Stake := some 1 }
        { exampleTx with Sender := [2] } exampleState false 0 1).code =
      some Code.InsufficientFunds ∧
    (DeclareCandidacyData.Run exampleEnv { exampleDeclare with Stake := some 1 }
        { exampleTx with Sender := [2] } exampleState false 0 1).state = exampleState ∧
    (DeclareCandidacyData.Run exampleEnv { exampleDeclare with Stake := some 1 }
        { exampleTx with Sender := [2] } exampleState false 0 1).state.candidates =
      exampleState.candidates ∧
    (DeclareCandidacyData.Run exampleEnv { exampleDeclare with Stake := some 1 }
        { exampleTx with Sender := [2] } exampleState false 0 1).state.nonce [2] =
      exampleState.nonce [2] ∧
    (DeclareCandidacyData.Run exampleEnv { exampleDeclare with Stake := some 1 }
        { exampleTx with Sender := [2] } exampleState false 0 1).rewardPool = 0 :=
  ⟨by decide,
   declare_low_stake_balance_insufficient_funds exampleEnv
     { exampleDeclare with Stake := some 1 } { exampleTx with Sender := [2] } exampleState
     false 0 1 1 10 (by decide) rfl (by decide) rfl (by decide)⟩

theorem lenientEnv_underflow_none (coin : Option Coin) (delta : Int) :
    lenientEnv.CheckReserveUnderflow coin delta = none := rfl

/-- Counterexample to C11 as stated: with an underflow helper that objects when the reserve
left would fall below `minCoinReserve`, a statically valid recreation paid in `TEST` whose
reserve 1000 is below the commission 2000 gets the helper's code, not
CoinReserveNotSufficient. -/
theorem recreate_low_reserve_not_always_reserve_not_sufficient :
    RecreateCoinData.BasicCheck exampleEnv exampleRecreate costlyTx exampleState = none ∧
    costlyTx.GasCoin ≠ exampleEnv.BaseCoinID ∧
    Coins.GetCoin exampleState costlyTx.GasCoin = some testCoinRecord ∧
    testCoinRecord.Reserve < costlyTx.CommissionInBaseCoin exampleEnv ∧
    (RecreateCoinData.Run exampleEnv exampleRecreate costlyTx
        (StateInterface.ofState exampleState) 0 1).code = some (Code.other 0) ∧
    (RecreateCoinData.Run exampleEnv exampleRecreate costlyTx
        (StateInterface.ofState exampleState) 0 1).code ≠
      some Code.CoinReserveNotSufficient := by
  decide

/-- C11 (amended): for a Recreate-Coin transaction that passes static validation, whose gas
coin is not the base coin and whose gas coin's reserve is smaller than the required base-coin
commission, `Run` (on either context) returns CoinReserveNotSufficient when the preceding
`CheckReserveUnderflow` call raises nothing, and the helper's response when it raises one; in
both cases the state, so every coin record, and the reward pool are left as they were. -/
theorem recreate_low_reserve_response (env : Env) (data : RecreateCoinData)
    (tx : Transaction) (context : StateInterface) (rewardPool : Int) (currentBlock : Nat)
    (coin : Coin)
    (hstatic : RecreateCoinData.BasicCheck env data tx context.view = none)
    (hgas : tx.GasCoin ≠ env.BaseCoinID)
    (hcoin : Coins.GetCoin context.view tx.GasCoin = some coin)
    (hlow : coin.Reserve < tx.CommissionInBaseCoin env) :
    (env.CheckReserveUnderflow (some coin) (tx.CommissionInBaseCoin env) = none →
      (RecreateCoinData.Run env data tx context rewardPool currentBlock).code =
        some Code.CoinReserveNotSufficient) ∧
    (∀ r, env.CheckReserveUnderflow (some coin) (tx.CommissionInBaseCoin env) = some r →
      (RecreateCoinData.Run env data tx context rewardPool currentBlock).response = some r) ∧
    (RecreateCoinData.Run env data tx context rewardPool currentBlock).state = context.view ∧
    (RecreateCoinData.Run env data tx context rewardPool currentBlock).state.coins =
      context.view.coins ∧
    (RecreateCoinData.Run env data tx context rewardPool currentBlock).rewardPool =
      rewardPool := by
  obtain ⟨amount, reserve, maxSupply, ha, hr, hm, _⟩ :=
    (recreate_BasicCheck_none_iff env data tx context.view).1 hstatic
  have hframe : (RecreateCoinData.Run env data tx context rewardPool currentBlock).state =
        context.view ∧
      (RecreateCoinData.Run env data tx context rewardPool currentBlock).rewardPool =
        rewardPool := by
    unfold RecreateCoinData.Run
    simp only [hstatic, ha, hr, hm]
    cases hres : RecreateCoinData.gasCommission env tx context.view
        (tx.CommissionInBaseCoin env) with
    | error r => exact ⟨rfl, rfl⟩
    | ok commission =>
      exfalso
      unfold RecreateCoinData.gasCommission at hres
      simp only [ne_eq, hgas, not_false_eq_true, if_true, hcoin] at hres
      split at hres
      · simp at hres
      · simp [hlow] at hres
  refine ⟨?_, ?_, hframe.1, ?_, hframe.2⟩
  · intro hnone
    unfold RecreateCoinData.Run
    simp only [hstatic, ha, hr, hm]
    have hg : RecreateCoinData.gasCommission env tx context.view
        (tx.CommissionInBaseCoin env) = Except.error (some
          { Code := Code.CoinReserveNotSufficient
            Log := "Gas coin reserve balance is not sufficient for transaction. Has: " ++
              bigString coin.Reserve ++ " " ++ env.BaseCoin ++ ", required " ++
              bigString (tx.CommissionInBaseCoin env) ++ " " ++ env.BaseCoin
            Info := [("has_value", bigString coin.Reserve),
                     ("required_value", bigString (tx.CommissionInBaseCoin env)),
                     ("gas_coin", env.GetFullSymbol coin)] }) := by
      unfold RecreateCoinData.gasCommission
      simp [hgas, hcoin, hnone, hlow]
    simp only [hg]
    rfl
  · intro r hsome
    unfold RecreateCoinData.Run
    simp only [hstatic, ha, hr, hm]
    have hg : RecreateCoinData.gasCommission env tx context.view
        (tx.CommissionInBaseCoin env) = Except.error (some r) := by
      unfold RecreateCoinData.gasCommission
      simp [hgas, hcoin, hsome]
    simp only [hg]
  · rw [hframe.1]

/-- Witness of C11 (amended): the recreation paid in `TEST` at commission 2000 against
reserve 1000 gets CoinReserveNotSufficient when the helper never objects, the helper's
response when it does, and the state is the example state afterwards. -/
theorem recreate_low_reserve_response_witness :
    ((RecreateCoinData.Run lenientEnv exampleRecreate costlyTx
        (StateInterface.ofState exampleState) 0 1).code =
      some Code.CoinReserveNotSufficient ∧
     (RecreateCoinData.Run lenientEnv exampleRecreate costlyTx
        (StateInterface.ofState exampleState) 0 1).state = exampleState) ∧
    ((RecreateCoinData.Run exampleEnv exampleRecreate costlyTx
        (StateInterface.ofState exampleState) 0 1).response =
      some { Code := Code.other 0, Log := "coin reserve is too small" } ∧
     (RecreateCoinData.Run exampleEnv exampleRecreate costlyTx
        (StateInterface.ofState exampleState) 0 1).state.coins = exampleState.coins) :=
  ⟨⟨(recreate_low_reserve_response lenientEnv exampleRecreate costlyTx
        (StateInterface.ofState exampleState) 0 1 testCoinRecord (by decide) (by decide)
        rfl (by decide)).1 rfl,
    (recreate_low_reserve_response lenientEnv exampleRecreate costlyTx
        (StateInterface.ofState exampleState) 0 1 testCoinRecord (by decide) (by decide)
        rfl (by decide)).2.2.1⟩,
   ⟨(recreate_low_reserve_response exampleEnv exampleRecreate costlyTx
        (StateInterface.ofState exampleState) 0 1 testCoinRecord (by decide) (by decide)
        rfl (by decide)).2.1 _ rfl,
    (recreate_low_reserve_response exampleEnv exampleRecreate costlyTx
        (StateInterface.ofState exampleState) 0 1 testCoinRecord (by decide) (by decide)
        rfl (by decide)).2.2.2.1⟩⟩

theorem declare_gasCommission_error_cases (env : Env) (tx : Transaction) (s : State)
    (cib : Int) (r : Response)
    (h : DeclareCandidacyData.gasCommission env tx s cib = Except.error (some r)) :
    (∃ coin delta, env.CheckReserveUnderflow coin delta = some r) ∨
      (r.Code = Code.CoinReserveNotSufficient ∧ r.Info ≠ []) := by
  unfold DeclareCandidacyData.gasCommission at h
  split at h
  · simp only at h
    split at h
    · next errResp hres =>
      simp only [Except.error.injEq, Option.some.injEq] at h
      subst h
      exact Or.inl ⟨_, _, hres⟩
    · split at h
      · simp at h
      · split at h
        · simp only [Except.error.injEq, Option.some.injEq] at h
          subst h
          right
          simp
        · simp at h
  · simp at h

theorem recreate_gasCommission_error_cases (env : Env) (tx : Transaction) (s : State)
    (cib : Int) (r : Response)
    (h : RecreateCoinData.gasCommission env tx s cib = Except.error (some r)) :
    (∃ coin delta, env.CheckReserveUnderflow coin delta = some r) ∨
      (r.Code = Code.CoinReserveNotSufficient ∧ r.Info ≠ []) := by
  unfold RecreateCoinData.gasCommission at h
  split at h
  · simp only at h
    split at h
    · next errResp hres =>
      simp only [Except.error.injEq, Option.some.injEq] at h
      subst h
      exact Or.inl ⟨_, _, hres⟩
    · split at h
      · simp at h
      · split at h
        · simp only [Except.error.injEq, Option.some.injEq] at h
          subst h
          right
          simp
        · simp at h
  · simp at h

/-- Where a response of `DeclareCandidacyData.Run` comes from: `BasicCheck`, the capacity
rule, the helper `CheckReserveUnderflow`, the reserve check, a funds check, or the final
return. -/
theorem declare_Run_response_cases (env : Env) (data : DeclareCandidacyData)
    (tx : Transaction) (s : State) (isCheck : Bool) (rp : Int) (h : Nat) (r : Response)
    (hr : (DeclareCandidacyData.Run env data tx s isCheck rp h).response = some r) :
    DeclareCandidacyData.BasicCheck env data tx s = some r ∨
    (r.Code = Code.TooLowStake ∧ r.Info = [] ∧
      Candidates.Count s ≥ env.GetCandidatesCountForBlock h) ∨
    (∃ coin delta, env.CheckReserveUnderflow coin delta = some r) ∨
    (r.Code = Code.CoinReserveNotSufficient ∧ r.Info ≠ []) ∨
    (r.Code = Code.InsufficientFunds ∧ r.Info ≠ []) ∨
    r.Code = Code.OK := by
  generalize hR : DeclareCandidacyData.Run env data tx s isCheck rp h = res at hr
  unfold DeclareCandidacyData.Run at hR
  simp only at hR
  split at hR
  · rename_i response hb
    subst hR
    simp only [RunResult.returned, Option.some.injEq] at hr
    subst hr
    exact Or.inl hb
  · subst hR
    simp [RunResult.aborted] at hr
  · rename_i stake hb hs
    split at hR
    · rename_i hcap
      subst hR
      simp only [RunResult.returned, Option.some.injEq] at hr
      subst hr
      exact Or.inr (Or.inl ⟨rfl, rfl, hcap.1⟩)
    · split at hR
      · rename_i r1 hg
        subst hR
        simp only at hr
        subst hr
        rcases declare_gasCommission_error_cases env tx s _ r hg with hh | hh
        · exact Or.inr (Or.inr (Or.inl hh))
        · exact Or.inr (Or.inr (Or.inr (Or.inl hh)))
      · rename_i commission hg
        split at hR
        · subst hR
          simp only [RunResult.returned, Option.some.injEq] at hr
          subst hr
          exact Or.inr (Or.inr (Or.inr (Or.inr (Or.inl ⟨rfl, by simp⟩))))
        · split at hR
          · subst hR
            simp only [RunResult.returned, Option.some.injEq] at hr
            subst hr
            exact Or.inr (Or.inr (Or.inr (Or.inr (Or.inl ⟨rfl, by simp⟩))))
          · split at hR
            · subst hR
              simp only [RunResult.returned, Option.some.injEq] at hr
              subst hr
              exact Or.inr (Or.inr (Or.inr (Or.inr (Or.inl ⟨rfl, by simp⟩))))
            · subst hR
              split at hr <;>
                (simp only [RunResult.returned, Option.some.injEq] at hr
                 subst hr
                 exact Or.inr (Or.inr (Or.inr (Or.inr (Or.inr rfl)))))

/-- C12: for a Declare-Candidacy transaction that passes static validation at block height
`currentBlock`: when the number of registered candidates has reached the limit of that
height and the new stake is not sufficient against the current candidates, `Run` returns
TooLowStake whatever the balances (and changes nothing); and when the number of candidates
is below the limit, `Run` does not return TooLowStake.  For the second part the helper
`CheckReserveUnderflow` is taken never to answer with the code TooLowStake itself. -/
theorem declare_capacity_rule (env : Env) (data : DeclareCandidacyData) (tx : Transaction)
    (s : State) (isCheck : Bool) (rewardPool : Int) (currentBlock : Nat) (stake : Int)
    (hstatic : DeclareCandidacyData.BasicCheck env data tx s = none)
    (hstake : data.Stake = some stake) :
    (Candidates.Count s ≥ env.GetCandidatesCountForBlock currentBlock →
      env.IsNewCandidateStakeSufficient s data.Coin stake
        (env.GetCandidatesCountForBlock currentBlock) = false →
      (DeclareCandidacyData.Run env data tx s isCheck rewardPool currentBlock).code =
        some Code.TooLowStake ∧
      (DeclareCandidacyData.Run env data tx s isCheck rewardPool currentBlock).state = s ∧
      (DeclareCandidacyData.Run env data tx s isCheck rewardPool currentBlock).rewardPool =
        rewardPool) ∧
    (env.UnderflowNeverReports Code.TooLowStake →
      Candidates.Count s < env.GetCandidatesCountForBlock currentBlock →
      (DeclareCandidacyData.Run env data tx s isCheck rewardPool currentBlock).code ≠
        some Code.TooLowStake) := by
  constructor
  · intro hfull hweak
    have hrun : DeclareCandidacyData.Run env data tx s isCheck rewardPool currentBlock =
        RunResult.returned { Code := Code.TooLowStake, Log := "Given stake is too low" }
          s rewardPool := by
      unfold DeclareCandidacyData.Run
      simp only [hstatic, hstake]
      rw [if_pos ⟨hfull, by simp [hweak]⟩]
    rw [hrun]
    exact ⟨rfl, rfl, rfl⟩
  · intro hhelper hfree hcode
    simp only [RunResult.code, Option.map_eq_some'] at hcode
    obtain ⟨r, hr, hrc⟩ := hcode
    rcases declare_Run_response_cases env data tx s isCheck rewardPool currentBlock r hr with
      hb | ⟨_, _, hfull⟩ | ⟨coin, delta, hh⟩ | ⟨hc, _⟩ | ⟨hc, _⟩ | hc
    · rw [hstatic] at hb
      cases hb
    · omega
    · exact hhelper coin delta r hh hrc
    · rw [hc] at hrc
      cases hrc
    · rw [hc] at hrc
      cases hrc
    · rw [hc] at hrc
      cases hrc

theorem exampleEnv_underflowNeverReports_tooLowStake :
    exampleEnv.UnderflowNeverReports Code.TooLowStake := by
  intro coin delta r hr
  simp only [exampleEnv] at hr
  split at hr
  · split_ifs at hr
    simp only [Option.some.injEq] at hr
    subst hr
    simp
  · simp at hr

/-- Witness of C12: with three candidates registered (the limit) and an insufficient stake the
example declaration gets TooLowStake and the state is left alone; with no candidate
registered it does not get TooLowStake. -/
theorem declare_capacity_rule_witness :
    ((DeclareCandidacyData.Run exampleEnv exampleDeclare exampleTx crowdedState false 0
        1).code = some Code.TooLowStake ∧
      (DeclareCandidacyData.Run exampleEnv exampleDeclare exampleTx crowdedState false 0
        1).state = crowdedState ∧
      (DeclareCandidacyData.Run exampleEnv exampleDeclare exampleTx crowdedState false 0
        1).rewardPool = 0) ∧
    (DeclareCandidacyData.Run exampleEnv exampleDeclare exampleTx exampleState false 0
        1).code ≠ some Code.TooLowStake :=
  ⟨(declare_capacity_rule exampleEnv exampleDeclare exampleTx crowdedState false 0 1 100
      (by decide) rfl).1 (by decide) rfl,
   (declare_capacity_rule exampleEnv exampleDeclare exampleTx exampleState false 0 1 100
      (by decide) rfl).2 exampleEnv_underflowNeverReports_tooLowStake (by decide)⟩

/-- C13: for bytes that decode to a transaction whose gas coin is the base coin, with gas
price P, gas units G and commission multiplier M, `EstimateTxCommission` (given a state for
the height) succeeds and returns as commission the decimal string of exactly `P * G * M`,
whatever the state holds. -/
theorem estimate_base_coin_commission (env : Env) (bytes : List Nat) (height : Int)
    (cState : State) (tx : Transaction)
    (hstate : env.GetStateForHeight height = Except.ok cState)
    (hdecode : env.DecodeFromBytesWithoutSig bytes = Except.ok tx)
    (hbase : tx.GasCoin = env.BaseCoinID) :
    EstimateTxCommission env bytes height =
      some (Except.ok
        { Commission := bigString ((tx.GasPrice : Int) * tx.Gas * env.CommissionMultiplier) })
      := by
  unfold EstimateTxCommission
  simp [hstate, hdecode, IsBaseCoin, hbase, Transaction.CommissionInBaseCoin]

/-- Witness of C13: the bytes `[1, 3, 0, 10]` decode to gas price 3, gas coin 0 (the base
coin) and gas 10; with multiplier 1 the commission returned is the string of 3 * 10 * 1, "30". -/
theorem estimate_base_coin_commission_witness :
    EstimateTxCommission exampleEnv [1, 3, 0, 10] 5 =
      some (Except.ok { Commission := bigString (((3 : Nat) : Int) * 10 * 1) }) ∧
    bigString (((3 : Nat) : Int) * 10 * 1) = "30" :=
  ⟨estimate_base_coin_commission exampleEnv [1, 3, 0, 10] 5 exampleState
    { Nonce := 1, GasPrice := 3, GasCoin := 0, Gas := 10, Sender := [] } rfl rfl rfl, rfl⟩

/-- C14: for bytes that decode to a transaction whose gas coin is an existing non-base coin,
`EstimateTxCommission` (given a state for the height) fails with a code-400 error exactly
when the coin's reserve is smaller than the base-coin commission, the error being the
reserve-insufficiency one, and otherwise returns the decimal string of
`CalculateSaleAmount(volume, reserve, crr, commission)`; for bytes that do not decode it
fails with the code-400 decode error. -/
theorem estimate_custom_coin_commission (env : Env) (bytes : List Nat) (height : Int)
    (cState : State) (hstate : env.GetStateForHeight height = Except.ok cState) :
    (∀ tx coin, env.DecodeFromBytesWithoutSig bytes = Except.ok tx →
      tx.GasCoin ≠ env.BaseCoinID → Coins.GetCoin cState tx.GasCoin = some coin →
      ((∃ err, EstimateTxCommission env bytes height = some (Except.error err) ∧
          err.Code = 400) ↔ coin.Reserve < tx.CommissionInBaseCoin env) ∧
      (coin.Reserve < tx.CommissionInBaseCoin env →
        EstimateTxCommission env bytes height = some (Except.error
          { Code := 400
            Message := "Coin reserve balance is not sufficient for transaction. Has: " ++
              bigString coin.Reserve ++ ", required " ++
              bigString (tx.CommissionInBaseCoin env) })) ∧
      (¬ coin.Reserve < tx.CommissionInBaseCoin env →
        EstimateTxCommission env bytes height = some (Except.ok
          { Commission := bigString (env.CalculateSaleAmount coin.Volume coin.Reserve
              coin.Crr (tx.CommissionInBaseCoin env)) }))) ∧
    (∀ err, env.DecodeFromBytesWithoutSig bytes = Except.error err →
      EstimateTxCommission env bytes height = some (Except.error
        { Code := 400, Message := "Cannot decode transaction", Data := err })) := by
  constructor
  · intro tx coin hdecode hgas hcoin
    have hlow : coin.Reserve < tx.CommissionInBaseCoin env →
        EstimateTxCommission env bytes height = some (Except.error
          { Code := 400
            Message := "Coin reserve balance is not sufficient for transaction. Has: " ++
              bigString coin.Reserve ++ ", required " ++
              bigString (tx.CommissionInBaseCoin env) }) := by
      intro hl
      unfold EstimateTxCommission
      simp [hstate, hdecode, IsBaseCoin, hgas, hcoin, hl]
    have hhigh : ¬ coin.Reserve < tx.CommissionInBaseCoin env →
        EstimateTxCommission env bytes height = some (Except.ok
          { Commission := bigString (env.CalculateSaleAmount coin.Volume coin.Reserve
              coin.Crr (tx.CommissionInBaseCoin env)) }) := by
      intro hl
      unfold EstimateTxCommission
      simp [hstate, hdecode, IsBaseCoin, hgas, hcoin, hl]
    refine ⟨⟨?_, ?_⟩, hlow, hhigh⟩
    · rintro ⟨err, herr, _⟩
      by_contra hl
      rw [hhigh hl] at herr
      simp at herr
    · intro hl
      exact ⟨_, hlow hl, rfl⟩
  · intro err hdecode
    unfold EstimateTxCommission
    simp [hstate, hdecode]

/-- Witness of C14: paid in `TEST` (volume 5000, reserve 1000), a commission of 10 is
estimated at `CalculateSaleAmount 5000 1000 100 10`, a commission of 2000 fails on the
reserve, and two bytes do not decode. -/
theorem estimate_custom_coin_commission_witness :
    EstimateTxCommission exampleEnv [1, 1, 1, 10] 5 = some (Except.ok
      { Commission := bigString (exampleEnv.CalculateSaleAmount 5000 1000 100 10) }) ∧
    (∃ err, EstimateTxCommission exampleEnv [1, 200, 1, 10] 5 = some (Except.error err) ∧
      err.Code = 400) ∧
    EstimateTxCommission exampleEnv [1, 1] 5 = some (Except.error
      { Code := 400, Message := "Cannot decode transaction",
        Data := "unexpected end of input" }) :=
  ⟨((estimate_custom_coin_commission exampleEnv [1, 1, 1, 10] 5 exampleState rfl).1
      { Nonce := 1, GasPrice := 1, GasCoin := 1, Gas := 10, Sender := [] } testCoinRecord
      rfl (by decide) rfl).2.2 (by decide),
   (((estimate_custom_coin_commission exampleEnv [1, 200, 1, 10] 5 exampleState rfl).1
      { Nonce := 1, GasPrice := 200, GasCoin := 1, Gas := 10, Sender := [] } testCoinRecord
      rfl (by decide) rfl).1).2 (by decide),
   (estimate_custom_coin_commission exampleEnv [1, 1] 5 exampleState rfl).2
      "unexpected end of input" rfl⟩

/-- C17 at its failing input: a gas coin identifier (7) that is not the base coin and has no
record.  `EstimateTxCommission` dereferences the nil coin record and returns nothing; so do
both `Run` methods when the helper `CheckReserveUnderflow` lets the nil record through.  On
a known gas coin all three return a value. -/
theorem unknown_gas_coin_aborts :
    Coins.GetCoin exampleState 7 = none ∧
    EstimateTxCommission exampleEnv [1, 1, 7, 10] 5 = none ∧
    (DeclareCandidacyData.Run exampleEnv exampleDeclare { exampleTx with GasCoin := 7 }
      exampleState false 0 1).response = none ∧
    (RecreateCoinData.Run exampleEnv exampleRecreate { exampleTx with GasCoin := 7 }
      (StateInterface.ofState exampleState) 0 1).response = none ∧
    (EstimateTxCommission exampleEnv [1, 1, 0, 10] 5).isSome = true ∧
    (DeclareCandidacyData.Run exampleEnv exampleDeclare exampleTx exampleState false 0
      1).response.isSome = true ∧
    (RecreateCoinData.Run exampleEnv exampleRecreate exampleTx
      (StateInterface.ofState exampleState) 0 1).response.isSome = true := by
  refine ⟨rfl, rfl, ?_, ?_, rfl, ?_, ?_⟩ <;> decide

/-- Where a response of `RecreateCoinData.Run` comes from: `BasicCheck`, the helper
`CheckReserveUnderflow`, the reserve check, a funds check, or the final return. -/
theorem recreate_Run_response_cases (env : Env) (data : RecreateCoinData)
    (tx : Transaction) (context : StateInterface) (rp : Int) (h : Nat) (r : Response)
    (hr : (RecreateCoinData.Run env data tx context rp h).response = some r) :
    RecreateCoinData.BasicCheck env data tx context.view = some r ∨
    (∃ coin delta, env.CheckReserveUnderflow coin delta = some r) ∨
    (r.Code = Code.CoinReserveNotSufficient ∧ r.Info ≠ []) ∨
    (r.Code = Code.InsufficientFunds ∧ r.Info ≠ []) ∨
    r.Code = Code.OK := by
  generalize hR : RecreateCoinData.Run env data tx context rp h = res at hr
  unfold RecreateCoinData.Run at hR
  simp only at hR
  split at hR
  · rename_i response hb
    subst hR
    simp only [RunResult.returned, Option.some.injEq] at hr
    subst hr
    exact Or.inl hb
  · split at hR
    · rename_i r1 hg
      subst hR
      simp only at hr
      subst hr
      rcases recreate_gasCommission_error_cases env tx _ _ r hg with hh | hh
      · exact Or.inr (Or.inl hh)
      · exact Or.inr (Or.inr (Or.inl hh))
    · split at hR
      · split at hR
        · subst hR
          simp [RunResult.aborted] at hr
        · subst hR
          simp only [RunResult.returned, Option.some.injEq] at hr
          subst hr
          exact Or.inr (Or.inr (Or.inr (Or.inl ⟨rfl, by simp⟩)))
      · split at hR
        · subst hR
          simp only [RunResult.returned, Option.some.injEq] at hr
          subst hr
          exact Or.inr (Or.inr (Or.inr (Or.inl ⟨rfl, by simp⟩)))
        · split at hR
          · split at hR
            · subst hR
              simp [RunResult.aborted] at hr
            · subst hR
              simp only [RunResult.returned, Option.some.injEq] at hr
              subst hr
              exact Or.inr (Or.inr (Or.inr (Or.inl ⟨rfl, by simp⟩)))
          · split at hR <;>
              (subst hR
               simp only [RunResult.returned, Option.some.injEq] at hr
               subst hr
               exact Or.inr (Or.inr (Or.inr (Or.inr rfl))))
  · subst hR
    simp [RunResult.aborted] at hr

theorem declare_BasicCheck_info (env : Env) (data : DeclareCandidacyData)
    (tx : Transaction) (s : State) (r : Response)
    (h : DeclareCandidacyData.BasicCheck env data tx s = some r)
    (hcode : r.Code ≠ Code.DecodeError) : r.Info ≠ [] := by
  unfold DeclareCandidacyData.BasicCheck at h
  split_ifs at h <;> simp only [Option.some.injEq] at h <;> subst h <;> simp at hcode ⊢

/-- Counterexample to C15 as stated: the DecodeError response of a declaration without
stake, the TooLowStake response at capacity, and the WrongCrr response of a recreation with
CRR 9 are not OK and carry an empty `Info`. -/
theorem error_responses_without_info :
    (DeclareCandidacyData.Run exampleEnv { exampleDeclare with Stake := none } exampleTx
        exampleState false 0 1).response =
      some { Code := Code.DecodeError, Log := "Incorrect tx data", Info := [] } ∧
    (DeclareCandidacyData.Run exampleEnv exampleDeclare exampleTx crowdedState false 0
        1).response =
      some { Code := Code.TooLowStake, Log := "Given stake is too low", Info := [] } ∧
    (RecreateCoinData.Run exampleEnv { exampleRecreate with ConstantReserveRatio := 9 }
        exampleTx (StateInterface.ofState exampleState) 0 1).response =
      some { Code := Code.WrongCrr
             Log := "Constant Reserve Ratio should be between 10 and 100", Info := [] } := by
  decide

/-- C15 (amended): every non-OK response `DeclareCandidacyData.Run` returns with a code other
than DecodeError and TooLowStake, and every non-OK response `RecreateCoinData.Run` returns
once `BasicCheck` has passed, carries a non-empty `Info`, provided the responses of the
helper `CheckReserveUnderflow` do. -/
theorem error_responses_with_info (env : Env) (hinfo : env.UnderflowHasInfo)
    (declare : DeclareCandidacyData) (recreate : RecreateCoinData) (tx : Transaction)
    (s : State) (isCheck : Bool) (context : StateInterface) (rewardPool : Int)
    (currentBlock : Nat) :
    (∀ r, (DeclareCandidacyData.Run env declare tx s isCheck rewardPool
        currentBlock).response = some r →
      r.Code ≠ Code.OK → r.Code ≠ Code.DecodeError → r.Code ≠ Code.TooLowStake →
      r.Info ≠ []) ∧
    (∀ r, (RecreateCoinData.Run env recreate tx context rewardPool currentBlock).response =
        some r →
      r.Code ≠ Code.OK → RecreateCoinData.BasicCheck env recreate tx context.view = none →
      r.Info ≠ []) := by
  constructor
  · intro r hr hok hdec hlow
    rcases declare_Run_response_cases env declare tx s isCheck rewardPool currentBlock r hr
      with hb | ⟨hc, _, _⟩ | ⟨coin, delta, hh⟩ | ⟨_, hi⟩ | ⟨_, hi⟩ | hc
    · exact declare_BasicCheck_info env declare tx s r hb hdec
    · exact absurd hc hlow
    · exact hinfo coin delta r hh
    · exact hi
    · exact hi
    · exact absurd hc hok
  · intro r hr hok hstatic
    rcases recreate_Run_response_cases env recreate tx context rewardPool currentBlock r hr
      with hb | ⟨coin, delta, hh⟩ | ⟨_, hi⟩ | ⟨_, hi⟩ | hc
    · rw [hstatic] at hb
      cases hb
    · exact hinfo coin delta r hh
    · exact hi
    · exact hi
    · exact absurd hc hok

theorem lenientEnv_underflowHasInfo : lenientEnv.UnderflowHasInfo := by
  intro coin delta r hr
  rw [lenientEnv_underflow_none] at hr
  cases hr

/-- Witness of C15 (amended): the InsufficientFunds response of a declaration with stake
2000 and the CoinReserveNotSufficient response of a recreation paid from too small a reserve
carry a non-empty `Info`. -/
theorem error_responses_with_info_witness :
    ((DeclareCandidacyData.Run lenientEnv { exampleDeclare with Stake := some 2000 } exampleTx
        exampleState false 0 1).code = some Code.InsufficientFunds ∧
      ∀ r, (DeclareCandidacyData.Run lenientEnv { exampleDeclare with Stake := some 2000 }
          exampleTx exampleState false 0 1).response = some r →
        r.Code ≠ Code.OK → r.Code ≠ Code.DecodeError → r.Code ≠ Code.TooLowStake →
        r.Info ≠ []) ∧
    ((RecreateCoinData.Run lenientEnv exampleRecreate costlyTx
        (StateInterface.ofState exampleState) 0 1).code =
        some Code.CoinReserveNotSufficient ∧
      ∀ r, (RecreateCoinData.Run lenientEnv exampleRecreate costlyTx
          (StateInterface.ofState exampleState) 0 1).response = some r →
        r.Code ≠ Code.OK →
        RecreateCoinData.BasicCheck lenientEnv exampleRecreate costlyTx
          (StateInterface.ofState exampleState).view = none →
        r.Info ≠ []) :=
  ⟨⟨by decide,
    (error_responses_with_info lenientEnv lenientEnv_underflowHasInfo
      { exampleDeclare with Stake := some 2000 } exampleRecreate exampleTx exampleState false
      (StateInterface.ofState exampleState) 0 1).1⟩,
   ⟨by decide,
    (error_responses_with_info lenientEnv lenientEnv_underflowHasInfo exampleDeclare
      exampleRecreate costlyTx exampleState false (StateInterface.ofState exampleState) 0
      1).2⟩⟩

/-- The response of an OK answer of `DeclareCandidacyData.Run`, in either mode. -/
theorem declare_Run_ok_response (env : Env) (hu : env.UnderflowIsError)
    (data : DeclareCandidacyData) (tx : Transaction) (s : State) (isCheck : Bool) (rp : Int)
    (h : Nat)
    (hok : (DeclareCandidacyData.Run env data tx s isCheck rp h).code = some Code.OK) :
    (DeclareCandidacyData.Run env data tx s isCheck rp h).response =
      some { Code := Code.OK, GasUsed := tx.Gas, GasWanted := tx.Gas,
             Tags := [("tx.type", hexEncodeToString [env.TypeDeclareCandidacy % 256]),
                      ("tx.from", hexEncodeToString tx.Sender)] } := by
  generalize hR : DeclareCandidacyData.Run env data tx s isCheck rp h = res at hok ⊢
  unfold DeclareCandidacyData.Run at hR
  simp only at hR
  split at hR
  · rename_i response hb
    exfalso
    subst hR
    simp only [RunResult.code, RunResult.returned, Option.map_some', Option.some.injEq] at hok
    exact declare_BasicCheck_code env data tx s response hb hok
  · subst hR
    simp [RunResult.code, RunResult.aborted] at hok
  · split at hR
    · subst hR
      simp [RunResult.code, RunResult.returned] at hok
    · split at hR
      · rename_i r hg
        exfalso
        subst hR
        cases r with
        | none => simp [RunResult.code] at hok
        | some r =>
          simp only [RunResult.code, Option.map_some', Option.some.injEq] at hok
          exact declare_gasCommission_error_code env hu tx s _ r hg hok
      · split at hR
        · subst hR
          simp [RunResult.code, RunResult.returned] at hok
        · split at hR
          · subst hR
            simp [RunResult.code, RunResult.returned] at hok
          · split at hR
            · subst hR
              simp [RunResult.code, RunResult.returned] at hok
            · subst hR
              cases isCheck <;> simp [RunResult.returned]

/-- The response of an OK answer of `RecreateCoinData.Run`: the tag `tx.coin` is there on a
`*state.State` context only. -/
theorem recreate_Run_ok_response (env : Env) (hu : env.UnderflowIsError)
    (data : RecreateCoinData) (tx : Transaction) (context : StateInterface) (rp : Int)
    (h : Nat)
    (hok : (RecreateCoinData.Run env data tx context rp h).code = some Code.OK) :
    (RecreateCoinData.Run env data tx context rp h).response =
      some { Code := Code.OK, GasUsed := tx.Gas, GasWanted := tx.Gas,
             Tags := [("tx.type", hexEncodeToString [env.TypeRecreateCoin % 256]),
                      ("tx.from", hexEncodeToString tx.Sender)] ++
               (if context.isCheck = true then [] else [("tx.coin", data.Symbol)]) } := by
  generalize hR : RecreateCoinData.Run env data tx context rp h = res at hok ⊢
  unfold RecreateCoinData.Run at hR
  simp only at hR
  split at hR
  · rename_i response hb
    exfalso
    subst hR
    simp only [RunResult.code, RunResult.returned, Option.map_some', Option.some.injEq] at hok
    exact recreate_BasicCheck_code env data tx _ response hb hok
  · split at hR
    · rename_i r hg
      exfalso
      subst hR
      cases r with
      | none => simp [RunResult.code] at hok
      | some r =>
        simp only [RunResult.code, Option.map_some', Option.some.injEq] at hok
        exact recreate_gasCommission_error_code env hu tx _ _ r hg hok
    · split at hR
      · exfalso
        split at hR <;> subst hR <;> simp [RunResult.code, RunResult.returned,
          RunResult.aborted] at hok
      · split at hR
        · subst hR
          simp [RunResult.code, RunResult.returned] at hok
        · split at hR
          · exfalso
            split at hR <;> subst hR <;> simp [RunResult.code, RunResult.returned,
              RunResult.aborted] at hok
          · subst hR
            cases context <;> simp [RunResult.returned, StateInterface.isCheck]
  · subst hR
    simp [RunResult.code, RunResult.aborted] at hok

/-- Counterexample to C16 as stated: the example recreation run on a `*state.CheckState`
context returns OK with exactly the two tags `tx.type` and `tx.from`; the tag `tx.coin` is
not among them. -/
theorem recreate_check_ok_has_no_coin_tag :
    (RecreateCoinData.Run exampleEnv exampleRecreate exampleTx
        (StateInterface.ofCheckState exampleState) 0 1).response =
      some { Code := Code.OK, GasUsed := 10, GasWanted := 10,
             Tags := [("tx.type", "10"), ("tx.from", "01")] } ∧
    ("tx.coin", exampleRecreate.Symbol) ∉
      ([("tx.type", "10"), ("tx.from", "01")] : List (String × String)) := by
  decide

/-- C16 (amended): every OK response of either handler has `GasUsed = GasWanted = tx.Gas()`
and a tag list that starts with `tx.type` = hex of the handler's type byte followed by
`tx.from` = hex of the sender address; for Declare-Candidacy these are all the tags, for
Recreate-Coin the tag `tx.coin` = the payload's symbol follows on a `*state.State` (Deliver)
context and nothing follows on a `*state.CheckState` context.  The helper
`CheckReserveUnderflow` is taken to answer with error responses only. -/
theorem ok_response_gas_and_tags (env : Env) (hu : env.UnderflowIsError)
    (declare : DeclareCandidacyData) (recreate : RecreateCoinData) (tx : Transaction)
    (s : State) (isCheck : Bool) (context : StateInterface) (rewardPool : Int)
    (currentBlock : Nat) :
    ((DeclareCandidacyData.Run env declare tx s isCheck rewardPool currentBlock).code =
        some Code.OK →
      ∃ r, (DeclareCandidacyData.Run env declare tx s isCheck rewardPool
          currentBlock).response = some r ∧
        r.GasUsed = tx.Gas ∧ r.GasWanted = tx.Gas ∧
        r.Tags = [("tx.type", hexEncodeToString [env.TypeDeclareCandidacy % 256]),
                  ("tx.from", hexEncodeToString tx.Sender)]) ∧
    ((RecreateCoinData.Run env recreate tx context rewardPool currentBlock).code =
        some Code.OK →
      ∃ r, (RecreateCoinData.Run env recreate tx context rewardPool currentBlock).response =
          some r ∧
        r.GasUsed = tx.Gas ∧ r.GasWanted = tx.Gas ∧
        r.Tags = [("tx.type", hexEncodeToString [env.TypeRecreateCoin % 256]),
                  ("tx.from", hexEncodeToString tx.Sender)] ++
          (if context.isCheck = true then [] else [("tx.coin", recreate.Symbol)])) := by
  constructor
  · intro hok
    exact ⟨_, declare_Run_ok_response env hu declare tx s isCheck rewardPool currentBlock hok,
      rfl, rfl, rfl⟩
  · intro hok
    exact ⟨_, recreate_Run_ok_response env hu recreate tx context rewardPool currentBlock hok,
      rfl, rfl, rfl⟩

/-- Witness of C16 (amended): the example declaration and the example recreation delivered on
the example state: gas 10, tags `tx.type`, `tx.from` and, for the recreation, `tx.coin`. -/
theorem ok_response_gas_and_tags_witness :
    (∃ r, (DeclareCandidacyData.Run exampleEnv exampleDeclare exampleTx exampleState false 0
          1).response = some r ∧
        r.GasUsed = exampleTx.Gas ∧ r.GasWanted = exampleTx.Gas ∧
        r.Tags = [("tx.type", hexEncodeToString [exampleEnv.TypeDeclareCandidacy % 256]),
                  ("tx.from", hexEncodeToString exampleTx.Sender)]) ∧
    (∃ r, (RecreateCoinData.Run exampleEnv exampleRecreate exampleTx
          (StateInterface.ofState exampleState) 0 1).response = some r ∧
        r.GasUsed = exampleTx.Gas ∧ r.GasWanted = exampleTx.Gas ∧
        r.Tags = [("tx.type", hexEncodeToString [exampleEnv.TypeRecreateCoin % 256]),
                  ("tx.from", hexEncodeToString exampleTx.Sender)] ++
          (if (StateInterface.ofState exampleState).isCheck = true then []
            else [("tx.coin", exampleRecreate.Symbol)])) ∧
    (RecreateCoinData.Run exampleEnv exampleRecreate exampleTx
        (StateInterface.ofState exampleState) 0 1).response.map (fun r => r.Tags) =
      some [("tx.type", "10"), ("tx.from", "01"), ("tx.coin", "TEST")] :=
  ⟨(ok_response_gas_and_tags exampleEnv exampleEnv_underflowIsError exampleDeclare
      exampleRecreate exampleTx exampleState false (StateInterface.ofState exampleState) 0
      1).1 (by decide),
   (ok_response_gas_and_tags exampleEnv exampleEnv_underflowIsError exampleDeclare
      exampleRecreate exampleTx exampleState false (StateInterface.ofState exampleState) 0
      1).2 (by decide),
   by decide⟩

/-- C18: a Deliver-mode run of either handler that returns OK adds exactly the base-coin
commission `gas price * gas * multiplier` to the reward pool, asks the coin store to lower the
gas coin's reserve by that same amount and its volume by the gas-coin commission, which is
the amount debited from the sender's gas-coin balance; for a gas coin other than the base
coin that has a record (and, for Recreate-Coin, is not the identifier being allocated), the
record afterwards has reserve and volume lowered by these two amounts.  The helper
`CheckReserveUnderflow` is taken to answer with error responses only. -/
theorem ok_deliver_commission_accounting (env : Env) (hu : env.UnderflowIsError)
    (declare : DeclareCandidacyData) (recreate : RecreateCoinData) (tx : Transaction)
    (s : State) (rewardPool : Int) (currentBlock : Nat) :
    ((DeclareCandidacyData.Run env declare tx s false rewardPool currentBlock).code =
        some Code.OK →
      ∃ stake commission,
        declare.Stake = some stake ∧
        DeclareCandidacyData.gasCommission env tx s
          ((tx.GasPrice : Int) * tx.Gas * env.CommissionMultiplier) = Except.ok commission ∧
        (DeclareCandidacyData.Run env declare tx s false rewardPool currentBlock).rewardPool =
          rewardPool + (tx.GasPrice : Int) * tx.Gas * env.CommissionMultiplier ∧
        (DeclareCandidacyData.Run env declare tx s false rewardPool currentBlock).state =
          Accounts.SetNonce
            (Candidates.Delegate
              (Candidates.Create
                (Accounts.SubBalance
                  (Accounts.SubBalance
                    (Coins.SubVolume
                      (Coins.SubReserve s tx.GasCoin
                        ((tx.GasPrice : Int) * tx.Gas * env.CommissionMultiplier))
                      tx.GasCoin commission)
                    tx.Sender declare.Coin stake)
                  tx.Sender tx.GasCoin commission)
                declare.Address tx.Sender declare.PubKey declare.Commission)
              tx.Sender declare.PubKey declare.Coin stake 0)
            tx.Sender tx.Nonce ∧
        (∀ coin, tx.GasCoin ≠ env.BaseCoinID → s.coins tx.GasCoin = some coin →
          (DeclareCandidacyData.Run env declare tx s false rewardPool
            currentBlock).state.coins tx.GasCoin =
            some { coin with
              Reserve := coin.Reserve - (tx.GasPrice : Int) * tx.Gas * env.CommissionMultiplier
              Volume := coin.Volume - commission })) ∧
    ((RecreateCoinData.Run env recreate tx (StateInterface.ofState s) rewardPool
        currentBlock).code = some Code.OK →
      ∃ amount reserve maxSupply commission,
        recreate.InitialAmount = some amount ∧
        recreate.InitialReserve = some reserve ∧
        recreate.MaxSupply = some maxSupply ∧
        RecreateCoinData.gasCommission env tx s
          ((tx.GasPrice : Int) * tx.Gas * env.CommissionMultiplier) = Except.ok commission ∧
        (RecreateCoinData.Run env recreate tx (StateInterface.ofState s) rewardPool
          currentBlock).rewardPool =
          rewardPool + (tx.GasPrice : Int) * tx.Gas * env.CommissionMultiplier ∧
        (RecreateCoinData.Run env recreate tx (StateInterface.ofState s) rewardPool
          currentBlock).state =
          Accounts.SetNonce
            (Accounts.AddBalance
              (App.SetCoinsCount
                (Coins.Recreate
                  (Accounts.SubBalance
                    (Accounts.SubBalance
                      (Coins.SubVolume
                        (Coins.SubReserve s tx.GasCoin
                          ((tx.GasPrice : Int) * tx.Gas * env.CommissionMultiplier))
                        tx.GasCoin commission)
                      tx.Sender env.BaseCoinID reserve)
                    tx.Sender tx.GasCoin commission)
                  (App.GetNextCoinID s) recreate.Symbol amount recreate.ConstantReserveRatio
                  reserve maxSupply)
                (App.GetNextCoinID s))
              tx.Sender (App.GetNextCoinID s) amount)
            tx.Sender tx.Nonce ∧
        (∀ coin, tx.GasCoin ≠ env.BaseCoinID → tx.GasCoin ≠ App.GetNextCoinID s →
          s.coins tx.GasCoin = some coin →
          (RecreateCoinData.Run env recreate tx (StateInterface.ofState s) rewardPool
            currentBlock).state.coins tx.GasCoin =
            some { coin with
              Reserve := coin.Reserve - (tx.GasPrice : Int) * tx.Gas * env.CommissionMultiplier
              Volume := coin.Volume - commission })) := by
  constructor
  · intro hok
    obtain ⟨stake, commission, hs, _, hg, _, _, _, hst, hrp⟩ :=
      declare_Run_ok env hu declare tx s false rewardPool currentBlock hok
    simp only [Bool.false_eq_true, if_false] at hst hrp
    refine ⟨stake, commission, hs, hg, hrp, ?_, ?_⟩
    · rw [hst]
      rfl
    · intro coin _ hcoin
      rw [hst]
      simp [DeclareCandidacyData.deliver, Accounts.SetNonce, Candidates.Delegate,
        Candidates.Create, Accounts.SubBalance, Coins.SubVolume, Coins.SubReserve, hcoin]
  · intro hok
    obtain ⟨amount, reserve, maxSupply, commission, ha, hr, hm, _, hg, _, _, _, hst, hrp⟩ :=
      recreate_Run_ok env hu recreate tx (StateInterface.ofState s) rewardPool currentBlock hok
    simp only [StateInterface.isCheck, StateInterface.view, Bool.false_eq_true, if_false,
      Transaction.CommissionInBaseCoin] at hg hst hrp
    refine ⟨amount, reserve, maxSupply, commission, ha, hr, hm, hg, hrp, ?_, ?_⟩
    · rw [hst]
      rfl
    · intro coin _ hnew hcoin
      rw [hst]
      simp only [App.GetNextCoinID] at hnew
      simp [RecreateCoinData.deliver, Accounts.SetNonce, Accounts.AddBalance,
        App.SetCoinsCount, Coins.Recreate, App.GetNextCoinID, Accounts.SubBalance,
        Coins.SubVolume, Coins.SubReserve, hcoin, hnew]

/-- Witness of C18: the example declaration and recreation paid in `TEST`: the reward pool
goes from 0 to 10, the record of `TEST` from reserve 1000 and volume 5000 to reserve 990 and
volume 4950, and the sender's `TEST` balance from 400 to 350. -/
theorem ok_deliver_commission_accounting_witness :
    ((DeclareCandidacyData.Run exampleEnv exampleDeclare testCoinTx exampleState false 0
        1).rewardPool = 10 ∧
      (DeclareCandidacyData.Run exampleEnv exampleDeclare testCoinTx exampleState false 0
        1).state.coins 1 = some { testCoinRecord with Reserve := 990, Volume := 4950 } ∧
      (DeclareCandidacyData.Run exampleEnv exampleDeclare testCoinTx exampleState false 0
        1).state.balance [1] 1 = 350) ∧
    ((RecreateCoinData.Run exampleEnv exampleRecreate testCoinTx
        (StateInterface.ofState exampleState) 0 1).rewardPool = 10 ∧
      (RecreateCoinData.Run exampleEnv exampleRecreate testCoinTx
        (StateInterface.ofState exampleState) 0 1).state.coins 1 =
        some { testCoinRecord with Reserve := 990, Volume := 4950 } ∧
      (RecreateCoinData.Run exampleEnv exampleRecreate testCoinTx
        (StateInterface.ofState exampleState) 0 1).state.balance [1] 1 = 350) :=
  ⟨match (ok_deliver_commission_accounting exampleEnv exampleEnv_underflowIsError
        exampleDeclare exampleRecreate testCoinTx exampleState 0 1).1 (by decide) with
    | ⟨_, commission, _, hg, hpool, _, hcoin⟩ =>
      have hc : commission = 50 := by
        have h50 : DeclareCandidacyData.gasCommission exampleEnv testCoinTx exampleState
            ((testCoinTx.GasPrice : Int) * testCoinTx.Gas * exampleEnv.CommissionMultiplier) =
            Except.ok 50 := rfl
        rw [h50] at hg
        exact (Except.ok.inj hg).symm
      ⟨hpool, by subst hc; exact hcoin testCoinRecord (by decide) rfl, by decide⟩,
   match (ok_deliver_commission_accounting exampleEnv exampleEnv_underflowIsError
        exampleDeclare exampleRecreate testCoinTx exampleState 0 1).2 (by decide) with
    | ⟨_, _, _, commission, _, _, _, hg, hpool, _, hcoin⟩ =>
      have hc : commission = 50 := by
        have h50 : RecreateCoinData.gasCommission exampleEnv testCoinTx exampleState
            ((testCoinTx.GasPrice : Int) * testCoinTx.Gas * exampleEnv.CommissionMultiplier) =
            Except.ok 50 := rfl
        rw [h50] at hg
        exact (Except.ok.inj hg).symm
      ⟨hpool, by subst hc; exact hcoin testCoinRecord (by decide) (by decide) rfl, by decide⟩⟩

/-- C19: from the same pre-state, a handler run in Check mode and in Deliver mode gives the
same outcome up to the tags: for Declare-Candidacy the two responses (or the absence of one)
are identical; for Recreate-Coin code, log, info and gas values agree.  So one mode returns OK
exactly when the other does. -/
theorem check_and_deliver_agree (env : Env) (declare : DeclareCandidacyData)
    (recreate : RecreateCoinData) (tx : Transaction) (s : State) (rewardPool : Int)
    (currentBlock : Nat) :
    (DeclareCandidacyData.Run env declare tx s true rewardPool currentBlock).response =
      (DeclareCandidacyData.Run env declare tx s false rewardPool currentBlock).response ∧
    (RecreateCoinData.Run env recreate tx (StateInterface.ofCheckState s) rewardPool
        currentBlock).response.map responseCore =
      (RecreateCoinData.Run env recreate tx (StateInterface.ofState s) rewardPool
        currentBlock).response.map responseCore ∧
    ((RecreateCoinData.Run env recreate tx (StateInterface.ofCheckState s) rewardPool
        currentBlock).code = some Code.OK ↔
      (RecreateCoinData.Run env recreate tx (StateInterface.ofState s) rewardPool
        currentBlock).code = some Code.OK) := by
  have hdeclare : (DeclareCandidacyData.Run env declare tx s true rewardPool
        currentBlock).response =
      (DeclareCandidacyData.Run env declare tx s false rewardPool currentBlock).response := by
    unfold DeclareCandidacyData.Run
    simp only
    split
    · rfl
    · rfl
    · split
      · rfl
      · split
        · rfl
        · split
          · rfl
          · split
            · rfl
            · split
              · rfl
              · rfl
  have hrecreate : (RecreateCoinData.Run env recreate tx (StateInterface.ofCheckState s)
        rewardPool currentBlock).response.map responseCore =
      (RecreateCoinData.Run env recreate tx (StateInterface.ofState s) rewardPool
        currentBlock).response.map responseCore := by
    unfold RecreateCoinData.Run
    simp only [StateInterface.view]
    split
    · rfl
    · split
      · rfl
      · split
        · split
          · rfl
          · rfl
        · split
          · rfl
          · split
            · split
              · rfl
              · rfl
            · rfl
    · rfl
  refine ⟨hdeclare, hrecreate, ?_⟩
  have hcode : ∀ res : RunResult, res.code = (res.response.map responseCore).map Prod.fst := by
    intro res
    cases hres : res.response <;> simp [RunResult.code, hres, responseCore]
  rw [hcode, hcode, hrecreate]

theorem estimate_of_declare_gasCommission (env : Env) (bytes : List Nat) (height : Int)
    (s : State) (tx decoded : Transaction) (commission : Int)
    (hstate : env.GetStateForHeight height = Except.ok s)
    (hdecode : env.DecodeFromBytesWithoutSig bytes = Except.ok decoded)
    (hprice : decoded.GasPrice = tx.GasPrice) (hgas : decoded.Gas = tx.Gas)
    (hcoin : decoded.GasCoin = tx.GasCoin)
    (hg : DeclareCandidacyData.gasCommission env tx s (tx.CommissionInBaseCoin env) =
      Except.ok commission) :
    EstimateTxCommission env bytes height =
      some (Except.ok { Commission := bigString commission }) := by
  have hcib : decoded.CommissionInBaseCoin env = tx.CommissionInBaseCoin env := by
    simp [Transaction.CommissionInBaseCoin, hprice, hgas]
  unfold DeclareCandidacyData.gasCommission at hg
  unfold EstimateTxCommission
  simp only [hstate, hdecode, hcib, hcoin]
  split at hg
  · rename_i hbase
    rw [if_pos hbase]
    simp only at hg
    split at hg
    · simp at hg
    · split at hg
      · simp at hg
      · split at hg
        · simp at hg
        · rename_i hres
          rw [if_neg hres]
          simp only [Except.ok.injEq] at hg
          rw [hg]
  · rename_i hbase
    rw [if_neg hbase]
    simp only [Except.ok.injEq] at hg
    rw [hg]

theorem recreate_gasCommission_eq_declare (env : Env) (tx : Transaction) (s : State)
    (cib commission : Int)
    (hg : RecreateCoinData.gasCommission env tx s cib = Except.ok commission) :
    DeclareCandidacyData.gasCommission env tx s cib = Except.ok commission := by
  unfold RecreateCoinData.gasCommission at hg
  unfold DeclareCandidacyData.gasCommission
  by_cases hbase : tx.GasCoin = env.BaseCoinID
  · simp only [ne_eq, hbase, not_true_eq_false, if_false] at hg
    simp [IsBaseCoin, hbase, hg]
  · simp only [ne_eq, hbase, not_false_eq_true, if_true] at hg
    simp only [IsBaseCoin, hbase, decide_False, Bool.false_eq_true, not_false_eq_true, if_true]
    split at hg
    · simp at hg
    · rename_i hnone
      split at hg
      · simp at hg
      · split at hg
        · simp at hg
        · rename_i hres
          simp only [Except.ok.injEq] at hg
          simp [hres, hg]

/-- C20: whenever `Run` of Declare-Candidacy or Recreate-Coin returns OK on a state, the
gas-coin commission it computed is the commission `EstimateTxCommission` returns (as a
decimal string) against the same state for bytes decoding to the same transaction (same gas
price, gas and gas coin; the decoding is without signature, so the sender need not be
known), the estimator succeeding there; and in Deliver mode that commission is what the
sender is charged: the sender's balance in the gas coin after the call is the balance before
lowered by exactly this commission (next to the stake, resp. the reserve contribution and
the minted amount, in the coins where those fall).  The helper `CheckReserveUnderflow` is
taken to answer with error responses only. -/
theorem run_commission_equals_estimate (env : Env) (hu : env.UnderflowIsError)
    (declare : DeclareCandidacyData) (recreate : RecreateCoinData) (tx : Transaction)
    (s : State) (isCheck : Bool) (context : StateInterface) (rewardPool : Int)
    (currentBlock : Nat) (bytes : List Nat) (height : Int)
    (decoded : Transaction)
    (hstate : env.GetStateForHeight height = Except.ok s)
    (hdecode : env.DecodeFromBytesWithoutSig bytes = Except.ok decoded)
    (hprice : decoded.GasPrice = tx.GasPrice) (hgas : decoded.Gas = tx.Gas)
    (hcoin : decoded.GasCoin = tx.GasCoin) :
    ((DeclareCandidacyData.Run env declare tx s isCheck rewardPool currentBlock).code =
        some Code.OK →
      ∃ stake commission,
        declare.Stake = some stake ∧
        DeclareCandidacyData.gasCommission env tx s
          ((tx.GasPrice : Int) * tx.Gas * env.CommissionMultiplier) = Except.ok commission ∧
        EstimateTxCommission env bytes height =
          some (Except.ok { Commission := bigString commission }) ∧
        (isCheck = false →
          ∀ c, (DeclareCandidacyData.Run env declare tx s isCheck rewardPool
              currentBlock).state.balance tx.Sender c =
            s.balance tx.Sender c - (if c = declare.Coin then stake else 0)
              - (if c = tx.GasCoin then commission else 0))) ∧
    (context.view = s →
      (RecreateCoinData.Run env recreate tx context rewardPool currentBlock).code =
        some Code.OK →
      ∃ amount reserve maxSupply commission,
        recreate.InitialAmount = some amount ∧
        recreate.InitialReserve = some reserve ∧
        recreate.MaxSupply = some maxSupply ∧
        RecreateCoinData.gasCommission env tx s (tx.CommissionInBaseCoin env) =
          Except.ok commission ∧
        EstimateTxCommission env bytes height =
          some (Except.ok { Commission := bigString commission }) ∧
        (context.isCheck = false →
          ∀ c, (RecreateCoinData.Run env recreate tx context rewardPool
              currentBlock).state.balance tx.Sender c =
            s.balance tx.Sender c - (if c = env.BaseCoinID then reserve else 0)
              - (if c = tx.GasCoin then commission else 0)
              + (if c = App.GetNextCoinID s then amount else 0))) := by
  constructor
  · intro hok
    obtain ⟨stake, commission, hs, _, hg, _, _, _, hst, _⟩ :=
      declare_Run_ok env hu declare tx s isCheck rewardPool currentBlock hok
    refine ⟨stake, commission, hs, hg,
      estimate_of_declare_gasCommission env bytes height s tx decoded commission hstate hdecode
        hprice hgas hcoin hg, ?_⟩
    intro hmode c
    rw [hst, hmode]
    simp only [Bool.false_eq_true, if_false, DeclareCandidacyData.deliver, Accounts.SetNonce,
      Candidates.Delegate, Candidates.Create, Accounts.SubBalance, Coins.SubVolume,
      Coins.SubReserve, true_and]
    split_ifs <;> omega
  · intro hview hok
    obtain ⟨amount, reserve, maxSupply, commission, ha, hr, hm, _, hg, _, _, _, hst, _⟩ :=
      recreate_Run_ok env hu recreate tx context rewardPool currentBlock hok
    rw [hview] at hg hst
    refine ⟨amount, reserve, maxSupply, commission, ha, hr, hm, hg,
      estimate_of_declare_gasCommission env bytes height s tx decoded commission hstate hdecode
        hprice hgas hcoin (recreate_gasCommission_eq_declare env tx s _ commission hg), ?_⟩
    intro hmode c
    rw [hst, hmode]
    simp only [Bool.false_eq_true, if_false, RecreateCoinData.deliver, Accounts.SetNonce,
      Accounts.AddBalance, App.SetCoinsCount, Coins.Recreate, App.GetNextCoinID,
      Accounts.SubBalance, Coins.SubVolume, Coins.SubReserve, true_and]
    split_ifs <;> omega

/-- Witness of C20: the example declaration and recreation paid in `TEST` are delivered with
OK; the estimator returns "50" for the bytes `[1, 1, 1, 10]` (gas price 1, gas coin 1, gas
10) against the same state, and the sender's `TEST` balance goes from 400 to 350 in both. -/
theorem run_commission_equals_estimate_witness :
    (∃ stake commission,
      exampleDeclare.Stake = some stake ∧
      DeclareCandidacyData.gasCommission exampleEnv testCoinTx exampleState
        ((testCoinTx.GasPrice : Int) * testCoinTx.Gas * exampleEnv.CommissionMultiplier) =
          Except.ok commission ∧
      EstimateTxCommission exampleEnv [1, 1, 1, 10] 5 =
        some (Except.ok { Commission := bigString commission }) ∧
      (false = false →
        ∀ c, (DeclareCandidacyData.Run exampleEnv exampleDeclare testCoinTx exampleState false
            0 1).state.balance testCoinTx.Sender c =
          exampleState.balance testCoinTx.Sender c
            - (if c = exampleDeclare.Coin then stake else 0)
            - (if c = testCoinTx.GasCoin then commission else 0))) ∧
    (∃ amount reserve maxSupply commission,
      exampleRecreate.InitialAmount = some amount ∧
      exampleRecreate.InitialReserve = some reserve ∧
      exampleRecreate.MaxSupply = some maxSupply ∧
      RecreateCoinData.gasCommission exampleEnv testCoinTx exampleState
        (testCoinTx.CommissionInBaseCoin exampleEnv) = Except.ok commission ∧
      EstimateTxCommission exampleEnv [1, 1, 1, 10] 5 =
        some (Except.ok { Commission := bigString commission }) ∧
      ((StateInterface.ofState exampleState).isCheck = false →
        ∀ c, (RecreateCoinData.Run exampleEnv exampleRecreate testCoinTx
            (StateInterface.ofState exampleState) 0 1).state.balance testCoinTx.Sender c =
          exampleState.balance testCoinTx.Sender c
            - (if c = exampleEnv.BaseCoinID then reserve else 0)
            - (if c = testCoinTx.GasCoin then commission else 0)
            + (if c = App.GetNextCoinID exampleState then amount else 0))) ∧
    EstimateTxCommission exampleEnv [1, 1, 1, 10] 5 =
      some (Except.ok { Commission := "50" }) ∧
    exampleState.balance [1] 1 = 400 ∧
    (DeclareCandidacyData.Run exampleEnv exampleDeclare testCoinTx exampleState false 0
      1).state.balance [1] 1 = 350 ∧
    (RecreateCoinData.Run exampleEnv exampleRecreate testCoinTx
      (StateInterface.ofState exampleState) 0 1).state.balance [1] 1 = 350 :=
  ⟨(run_commission_equals_estimate exampleEnv exampleEnv_underflowIsError exampleDeclare
      exampleRecreate testCoinTx exampleState false (StateInterface.ofState exampleState) 0 1
      [1, 1, 1, 10] 5 { Nonce := 1, GasPrice := 1, GasCoin := 1, Gas := 10, Sender := [] }
      rfl rfl rfl rfl rfl).1 (by decide),
   (run_commission_equals_estimate exampleEnv exampleEnv_underflowIsError exampleDeclare
      exampleRecreate testCoinTx exampleState false (StateInterface.ofState exampleState) 0 1
      [1, 1, 1, 10] 5 { Nonce := 1, GasPrice := 1, GasCoin := 1, Gas := 10, Sender := [] }
      rfl rfl rfl rfl rfl).2 rfl (by decide),
   rfl, by decide, by decide, by decide⟩

end Minter
